import Mathlib

/-!
Shallow embedding of the PI-Planner core: the scheduling model (`src/src/lib/calc.ts`),
the planner state store (`src/src/store/piStore.ts`) and the dependency edge router
(the `DependencyOverlay` component), together with theorems settling the specification
claims about them.

Numeric values held in JavaScript numbers are modelled as `ℚ` (exact rationals) or `ℤ`
where the code only ever produces integers; on every concrete input used below the
JavaScript float arithmetic is exact, so the models agree with the source.

JavaScript `Array.prototype.sort` with a consistent comparator is a stable sort
(ES2019); the unique stable sort with respect to the induced total preorder is
realised here by `List.insertionSort`.
-/

/-- JavaScript `Array.prototype.indexOf` on string arrays: index of the first
occurrence of `x`, `-1` when absent. -/
def jsIndexOf (l : List String) (x : String) : Int :=
  match l with
  | [] => -1
  | a :: rest =>
      if a = x then 0
      else
        let r := jsIndexOf rest x
        if r = -1 then -1 else r + 1

/-- JavaScript `String.prototype.trim`: strip leading and trailing whitespace.
Implemented over the character list so it reduces in the kernel. -/
def trimString (s : String) : String :=
  String.mk
    (((((s.data.dropWhile Char.isWhitespace).reverse).dropWhile Char.isWhitespace).reverse))

/-- JavaScript `String.prototype.toUpperCase`, restricted to the ASCII mapping. -/
def upperString (s : String) : String :=
  String.mk (s.data.map Char.toUpper)

/-- Modelled from the spec: the repository imports `BACKLOG_COLUMN_ID` from a
`constants` module that is not under `src/`.  The spec fixes it only as the reserved
Backlog sentinel column id, so a fixed string stands for it here. -/
def BACKLOG_COLUMN_ID : String := "__backlog__"

/-- Modelled from the spec: the reserved "Unassigned" developer sentinel id from the
missing `constants` module. -/
def UNASSIGNED_DEVELOPER_ID : String := "__unassigned__"

/-- Modelled from the spec: the fixed default per-developer sprint capacity (8 story
points) from the missing `constants` module. -/
def DEFAULT_SPRINT_CAPACITY : ℚ := 8

/-- Modelled from the spec: `REQUIRED_SPRINT_COUNT` from the missing `constants`
module ("ensure at least N sprint slots exist"); the exact count is immaterial to
every theorem below. -/
def REQUIRED_SPRINT_COUNT : Nat := 6

/-- `Sprint` from `src/src/types.ts`. -/
structure Sprint where
  id : String
  name : String
  order : Int
  capacityPerDevSP : Option ℚ
deriving DecidableEq, Repr

/-- `Developer` from `src/src/types.ts`. -/
structure Developer where
  id : String
  name : String
deriving DecidableEq, Repr

/-- `Feature` from `src/src/types.ts` (the store also reads an optional `url`). -/
structure Feature where
  id : String
  name : String
  url : Option String
deriving DecidableEq, Repr

/-- `Ticket` from `src/src/types.ts` (the store also reads an optional `jiraUrl`). -/
structure Ticket where
  id : String
  key : String
  name : String
  storyPoints : ℚ
  developerId : String
  featureId : String
  sprintIds : List String
  dependencies : List String
  createdAt : Int
  jiraUrl : Option String
deriving DecidableEq, Repr

/-- `currentSprintId` from `src/src/lib/calc.ts`:
`ticket.sprintIds[ticket.sprintIds.length - 1]`.  The JavaScript expression is
`undefined` on an empty trail; the embedding returns `""` there. -/
def currentSprintId (ticket : Ticket) : String :=
  ticket.sprintIds.getD (ticket.sprintIds.length - 1) ""

/-- `sprintIndex` from `src/src/lib/calc.ts`: `ordered.indexOf(id)`. -/
def sprintIndex (id : String) (ordered : List String) : Int :=
  jsIndexOf ordered id

/-- The seen-set filter at the start of `sortSprintTrail`: keep the first occurrence
of every id, dropping later duplicates (the second argument is the mutable `seen`
set). -/
def dedupeSeen : List String → List String → List String
  | [], _ => []
  | x :: xs, seen =>
      if x ∈ seen then dedupeSeen xs seen else x :: dedupeSeen xs (x :: seen)

/-- The total preorder induced by the `sortSprintTrail` comparator
`(a, b) => sprintIndex(a, ordered) - sprintIndex(b, ordered)`. -/
def trailLE (ordered : List String) (a b : String) : Prop :=
  sprintIndex a ordered ≤ sprintIndex b ordered

instance (ordered : List String) : DecidableRel (trailLE ordered) :=
  fun a b => Int.decLe (sprintIndex a ordered) (sprintIndex b ordered)

instance (ordered : List String) : IsTotal String (trailLE ordered) :=
  ⟨fun a b => Int.le_total (sprintIndex a ordered) (sprintIndex b ordered)⟩

instance (ordered : List String) : IsTrans String (trailLE ordered) :=
  ⟨fun _ _ _ hab hbc => le_trans hab hbc⟩

/-- `sortSprintTrail` from `src/src/lib/calc.ts`: filter through the `seen` set
(first occurrence wins), then stable-sort by `sprintIndex`. -/
def sortSprintTrail (sprintIds ordered : List String) : List String :=
  List.insertionSort (trailLE ordered) (dedupeSeen sprintIds [])

/-- Result record of `isMoveBlockedByDeps`. -/
structure BlockResult where
  blocked : Bool
  blockers : List String
deriving DecidableEq, Repr

/-- `isMoveBlockedByDeps` from `src/src/lib/calc.ts`. -/
def isMoveBlockedByDeps (ticket : Ticket) (targetSprintId : String)
    (getTicket : String → Option Ticket) (orderedIds : List String) : BlockResult :=
  if targetSprintId = BACKLOG_COLUMN_ID then
    { blocked := false, blockers := [] }
  else
    let targetIdx := sprintIndex targetSprintId orderedIds
    let blockers := ticket.dependencies.filter (fun depId =>
      match getTicket depId with
      | none => false
      | some dep => decide (targetIdx < sprintIndex (currentSprintId dep) orderedIds))
    { blocked := decide (0 < blockers.length), blockers := blockers }

/-- `capacityForSprint` from `src/src/lib/calc.ts`:
`sprint?.capacityPerDevSP ?? 8`. -/
def capacityForSprint (sprintId : String) (sprints : List Sprint) : ℚ :=
  match sprints.find? (fun s => s.id == sprintId) with
  | some sprint => sprint.capacityPerDevSP.getD 8
  | none => 8

theorem jsIndexOf_eq_neg_one (l : List String) (x : String) (hx : x ∉ l) :
    jsIndexOf l x = -1 := by
  induction l with
  | nil => rfl
  | cons a rest ih =>
      simp only [List.mem_cons, not_or] at hx
      simp [jsIndexOf, Ne.symm hx.1, ih hx.2]

theorem dedupeSeen_mem (l : List String) (seen : List String) (x : String) :
    x ∈ dedupeSeen l seen ↔ x ∈ l ∧ x ∉ seen := by
  induction l generalizing seen with
  | nil => simp [dedupeSeen]
  | cons a rest ih =>
      by_cases ha : a ∈ seen
      · simp only [dedupeSeen, if_pos ha, ih, List.mem_cons]
        constructor
        · exact fun h => ⟨Or.inr h.1, h.2⟩
        · rintro ⟨h | h, hs⟩
          · exact absurd (h.symm ▸ ha) hs
          · exact ⟨h, hs⟩
      · simp only [dedupeSeen, if_neg ha, List.mem_cons, ih, not_or]
        constructor
        · rintro (rfl | ⟨h1, h2, h3⟩)
          · exact ⟨Or.inl rfl, ha⟩
          · exact ⟨Or.inr h1, h3⟩
        · rintro ⟨rfl | h1, h2⟩
          · exact Or.inl rfl
          · by_cases hxa : x = a
            · exact Or.inl hxa
            · exact Or.inr ⟨h1, hxa, h2⟩

theorem dedupeSeen_nodup (l : List String) (seen : List String) :
    (dedupeSeen l seen).Nodup := by
  induction l generalizing seen with
  | nil => simp [dedupeSeen]
  | cons a rest ih =>
      by_cases ha : a ∈ seen
      · simpa [dedupeSeen, if_pos ha] using ih seen
      · simp only [dedupeSeen, if_neg ha, List.nodup_cons]
        refine ⟨fun hmem => ?_, ih (a :: seen)⟩
        exact ((dedupeSeen_mem rest (a :: seen) a).mp hmem).2 (List.mem_cons_self a seen)

theorem dedupeSeen_eq_self (l : List String) (seen : List String) (hl : l.Nodup)
    (hdisj : ∀ x ∈ l, x ∉ seen) : dedupeSeen l seen = l := by
  induction l generalizing seen with
  | nil => rfl
  | cons a rest ih =>
      have ha : a ∉ seen := hdisj a (List.mem_cons_self a rest)
      simp only [List.nodup_cons] at hl
      simp only [dedupeSeen, if_neg ha]
      refine congrArg (a :: ·) (ih (a :: seen) hl.2 ?_)
      intro x hx
      simp only [List.mem_cons, not_or]
      exact ⟨fun hxa => hl.1 (hxa ▸ hx), hdisj x (List.mem_cons_of_mem a hx)⟩

/-- C2: `isMoveBlockedByDeps` never blocks a move to the Backlog sentinel; otherwise
its `blockers` are exactly the dependency ids that resolve through the lookup to a
ticket whose current sprint has a strictly greater index in the ordered list than the
target (unresolvable ids never appear; order follows the dependency list), and
`blocked` holds iff `blockers` is non-empty. -/
theorem c2_isMoveBlockedByDeps_spec (ticket : Ticket) (targetSprintId : String)
    (getTicket : String → Option Ticket) (orderedIds : List String) :
    (targetSprintId = BACKLOG_COLUMN_ID →
      isMoveBlockedByDeps ticket targetSprintId getTicket orderedIds =
        { blocked := false, blockers := [] }) ∧
    (targetSprintId ≠ BACKLOG_COLUMN_ID →
      ((∀ depId,
          depId ∈ (isMoveBlockedByDeps ticket targetSprintId getTicket orderedIds).blockers ↔
            depId ∈ ticket.dependencies ∧
              ∃ dep, getTicket depId = some dep ∧
                sprintIndex targetSprintId orderedIds <
                  sprintIndex (currentSprintId dep) orderedIds) ∧
        (isMoveBlockedByDeps ticket targetSprintId getTicket orderedIds).blockers.Sublist
          ticket.dependencies ∧
        ((isMoveBlockedByDeps ticket targetSprintId getTicket orderedIds).blocked = true ↔
          (isMoveBlockedByDeps ticket targetSprintId getTicket orderedIds).blockers ≠ []))) := by
  constructor
  · intro h
    simp [isMoveBlockedByDeps, h]
  · intro h
    refine ⟨fun depId => ?_, ?_, ?_⟩
    · simp only [isMoveBlockedByDeps, if_neg h, List.mem_filter]
      constructor
      · rintro ⟨hmem, hp⟩
        refine ⟨hmem, ?_⟩
        cases hg : getTicket depId with
        | none => rw [hg] at hp; simp at hp
        | some dep =>
            rw [hg] at hp
            exact ⟨dep, rfl, by simpa using hp⟩
      · rintro ⟨hmem, dep, hg, hlt⟩
        refine ⟨hmem, ?_⟩
        rw [hg]
        simpa using hlt
    · simp only [isMoveBlockedByDeps, if_neg h]
      exact List.filter_sublist _
    · simp only [isMoveBlockedByDeps, if_neg h]
      simp [List.length_pos]

/-- Concrete tickets used by witnesses: a dependency scheduled in sprint `S3`. -/
def wTicketA : Ticket :=
  { id := "A", key := "KEY-A", name := "Dep", storyPoints := 3, developerId := "d1",
    featureId := "f1", sprintIds := ["S3"], dependencies := [], createdAt := 0,
    jiraUrl := none }

/-- Concrete tickets used by witnesses: a ticket in `S1` depending on `wTicketA` and on
an unresolvable id. -/
def wTicketB : Ticket :=
  { id := "B", key := "KEY-B", name := "Dependent", storyPoints := 5, developerId := "d1",
    featureId := "f1", sprintIds := ["S1"], dependencies := ["A", "zz"], createdAt := 0,
    jiraUrl := none }

/-- Concrete ticket lookup resolving only `"A"`. -/
def wLookup : String → Option Ticket :=
  fun i => if i = "A" then some wTicketA else none

theorem c2_isMoveBlockedByDeps_spec_witness :
    ("S1" : String) ≠ BACKLOG_COLUMN_ID ∧
    ("A" ∈ (isMoveBlockedByDeps wTicketB "S1" wLookup ["S1", "S2", "S3"]).blockers ↔
      "A" ∈ wTicketB.dependencies ∧
        ∃ dep, wLookup "A" = some dep ∧
          sprintIndex "S1" ["S1", "S2", "S3"] <
            sprintIndex (currentSprintId dep) ["S1", "S2", "S3"]) :=
  ⟨by decide,
    ((c2_isMoveBlockedByDeps_spec wTicketB "S1" wLookup ["S1", "S2", "S3"]).2
      (by decide)).1 "A"⟩

/-- C6: `sortSprintTrail` is idempotent and returns a duplicate-free list; the result
has exactly the members of the input trail, is sorted by each id's index in the
ordered list, and ids absent from the ordered list (the Backlog sentinel) carry index
`-1`, so they sort first. -/
theorem c6_sortSprintTrail_spec (T O : List String) :
    sortSprintTrail (sortSprintTrail T O) O = sortSprintTrail T O ∧
    (sortSprintTrail T O).Nodup ∧
    (∀ x, x ∈ sortSprintTrail T O ↔ x ∈ T) ∧
    List.Sorted (trailLE O) (sortSprintTrail T O) ∧
    (∀ x, x ∉ O → sprintIndex x O = -1) := by
  have hnodup : (sortSprintTrail T O).Nodup :=
    (List.perm_insertionSort (trailLE O) (dedupeSeen T [])).symm.nodup (dedupeSeen_nodup T [])
  have hsorted : List.Sorted (trailLE O) (sortSprintTrail T O) :=
    List.sorted_insertionSort (trailLE O) (dedupeSeen T [])
  refine ⟨?_, hnodup, ?_, hsorted, fun x hx => jsIndexOf_eq_neg_one O x hx⟩
  · show List.insertionSort (trailLE O) (dedupeSeen (sortSprintTrail T O) []) =
      sortSprintTrail T O
    rw [dedupeSeen_eq_self _ _ hnodup (by simp)]
    exact List.Sorted.insertionSort_eq hsorted
  · intro x
    simp only [sortSprintTrail]
    rw [List.Perm.mem_iff (List.perm_insertionSort _ _), dedupeSeen_mem]
    simp

theorem c6_sortSprintTrail_spec_witness :
    sortSprintTrail (sortSprintTrail ["S3", "S1", "S2", "S3"] ["S1", "S2", "S3"])
        ["S1", "S2", "S3"] =
      sortSprintTrail ["S3", "S1", "S2", "S3"] ["S1", "S2", "S3"] ∧
    "zz" ∉ (["S1", "S2", "S3"] : List String) ∧
    sprintIndex "zz" ["S1", "S2", "S3"] = -1 :=
  ⟨(c6_sortSprintTrail_spec ["S3", "S1", "S2", "S3"] ["S1", "S2", "S3"]).1, by decide,
    (c6_sortSprintTrail_spec ["S3", "S1", "S2", "S3"] ["S1", "S2", "S3"]).2.2.2.2 "zz"
      (by decide)⟩

/-- `PlannerData` from `src/src/lib/persist.ts`: the persisted snapshot shape. -/
structure PlannerData where
  sprints : List Sprint
  developers : List Developer
  features : List Feature
  tickets : List Ticket
  currentSprintId : Option String
  ticketBaseUrl : Option String
deriving DecidableEq, Repr

/-- The two move modes of `src/src/store/piStore.ts`. -/
inductive MoveMode
  | move
  | extend
deriving DecidableEq, Repr

/-- `KeyboardMoveState` from piStore.ts. -/
structure KeyboardMoveState where
  ticketId : String
  targetDeveloperId : String
  targetSprintId : String
deriving DecidableEq, Repr

/-- `LiveAnnouncement` from piStore.ts; `timestamp` is the `Date.now()` value passed
explicitly to the operations below. -/
structure LiveAnnouncement where
  message : String
  timestamp : Int
deriving DecidableEq, Repr

/-- The zustand store state of piStore.ts: the planner data, the UI state the claims
mention, and `persisted`, the snapshot last written through `persistPlannerState`
(modelling the browser storage the `commit` helper writes to).  The `notices` list is
omitted: no claim mentions it and no operation below reads it. -/
structure PlannerStore where
  sprints : List Sprint
  developers : List Developer
  features : List Feature
  tickets : List Ticket
  currentSprintId : Option String
  ticketBaseUrl : Option String
  showDependencies : Bool
  keyboardMove : Option KeyboardMoveState
  liveAnnouncement : Option LiveAnnouncement
  persisted : PlannerData
deriving DecidableEq, Repr

/-- The `PlannerData` part of the store state, as read by the `commit` helper. -/
def PlannerStore.data (s : PlannerStore) : PlannerData :=
  { sprints := s.sprints, developers := s.developers, features := s.features,
    tickets := s.tickets, currentSprintId := s.currentSprintId,
    ticketBaseUrl := s.ticketBaseUrl }

/-- The total preorder induced by the sprint comparator `(a, b) => a.order - b.order`. -/
def sprintLE (a b : Sprint) : Prop :=
  a.order ≤ b.order

instance : DecidableRel sprintLE :=
  fun a b => Int.decLe a.order b.order

instance : IsTotal Sprint sprintLE :=
  ⟨fun a b => Int.le_total a.order b.order⟩

instance : IsTrans Sprint sprintLE :=
  ⟨fun _ _ _ hab hbc => le_trans hab hbc⟩

/-- `orderedSprints` from piStore.ts: sprint ids sorted by `order` (stable sort). -/
def orderedSprints (s : PlannerStore) : List String :=
  (List.insertionSort sprintLE s.sprints).map (fun sp => sp.id)

/-- `addFeature` from piStore.ts; `freshId` stands for the `nanoid()` call. -/
def addFeature (freshId name : String) (s : PlannerStore) : PlannerStore :=
  let trimmed := trimString name
  if trimmed = "" then s
  else
    let nextFeatures := s.features ++ [{ id := freshId, name := trimmed, url := none }]
    { s with
      features := nextFeatures
      persisted := { s.data with features := nextFeatures } }

/-- `Partial<Feature>` as used by `updateFeature`. -/
structure FeaturePatch where
  name : Option String
  url : Option String
deriving DecidableEq, Repr

/-- `updateFeature` from piStore.ts. -/
def updateFeature (id : String) (patch : FeaturePatch) (s : PlannerStore) : PlannerStore :=
  let nextFeatures := s.features.map (fun feature =>
    if feature.id ≠ id then feature
    else
      let trimmedName := patch.name.map trimString
      let providedUrl := patch.url.map trimString
      let normalizedUrl :=
        match patch.url with
        | none => feature.url
        | some _ =>
            match providedUrl with
            | some u => if u = "" then none else some u
            | none => none
      { feature with
        name := match trimmedName with
          | some n => if n = "" then feature.name else n
          | none => feature.name
        url := normalizedUrl })
  { s with
    features := nextFeatures
    persisted := { s.data with features := nextFeatures } }

/-- `removeFeature` from piStore.ts: drop the feature and every ticket of it. -/
def removeFeature (id : String) (s : PlannerStore) : PlannerStore :=
  let nextFeatures := s.features.filter (fun feature => feature.id != id)
  let nextTickets := s.tickets.filter (fun ticket => ticket.featureId != id)
  { s with
    features := nextFeatures
    tickets := nextTickets
    persisted := { s.data with features := nextFeatures, tickets := nextTickets } }

/-- `addDeveloper` from piStore.ts. -/
def addDeveloper (freshId name : String) (s : PlannerStore) : PlannerStore :=
  let trimmed := trimString name
  if trimmed = "" then s
  else
    let nextDevelopers := s.developers ++ [{ id := freshId, name := trimmed }]
    { s with
      developers := nextDevelopers
      persisted := { s.data with developers := nextDevelopers } }

/-- `Partial<Developer>` as used by `updateDeveloper`. -/
structure DeveloperPatch where
  name : Option String
deriving DecidableEq, Repr

/-- `updateDeveloper` from piStore.ts. -/
def updateDeveloper (id : String) (patch : DeveloperPatch) (s : PlannerStore) :
    PlannerStore :=
  if id = UNASSIGNED_DEVELOPER_ID then s
  else
    let nextDevelopers := s.developers.map (fun developer =>
      if developer.id = id then
        { developer with
          name := match patch.name.map trimString with
            | some n => if n = "" then developer.name else n
            | none => developer.name }
      else developer)
    { s with
      developers := nextDevelopers
      persisted := { s.data with developers := nextDevelopers } }

/-- `removeDeveloper` from piStore.ts. -/
def removeDeveloper (id : String) (s : PlannerStore) : PlannerStore :=
  if id = UNASSIGNED_DEVELOPER_ID then s
  else
    let nextDevelopers := s.developers.filter (fun developer => developer.id != id)
    let nextTickets := s.tickets.map (fun ticket =>
      if ticket.developerId = id then { ticket with developerId := UNASSIGNED_DEVELOPER_ID }
      else ticket)
    { s with
      developers := nextDevelopers
      tickets := nextTickets
      persisted := { s.data with developers := nextDevelopers, tickets := nextTickets } }

/-- The `addTicket` argument type
(`Omit<Ticket, 'id' | 'createdAt' | 'dependencies' | 'sprintIds'>` plus optional
`sprintIds`/`dependencies`); `developerId` is optional to model the runtime
`partial.developerId ?? UNASSIGNED_DEVELOPER_ID` fallback. -/
structure AddTicketInput where
  key : String
  name : String
  storyPoints : ℚ
  developerId : Option String
  featureId : String
  sprintIds : Option (List String)
  dependencies : Option (List String)
  jiraUrl : Option String
deriving DecidableEq, Repr

/-- `addTicket` from piStore.ts; `freshId` stands for `nanoid()` and `now` for
`Date.now()`. -/
def addTicket (freshId : String) (now : Int) (input : AddTicketInput) (s : PlannerStore) :
    PlannerStore :=
  let orderedSprintIds := orderedSprints s
  let sprintIds := sortSprintTrail (input.sprintIds.getD []) orderedSprintIds
  let resolvedSprintIds := if 0 < sprintIds.length then sprintIds else [BACKLOG_COLUMN_ID]
  let developerId := input.developerId.getD UNASSIGNED_DEVELOPER_ID
  let ticket : Ticket :=
    { id := freshId, key := input.key, name := input.name,
      storyPoints := input.storyPoints, developerId := developerId,
      featureId := input.featureId, sprintIds := resolvedSprintIds,
      dependencies := input.dependencies.getD [], createdAt := now,
      jiraUrl := match input.jiraUrl with
        | some u => if trimString u = "" then none else some (trimString u)
        | none => none }
  let nextTickets := s.tickets ++ [ticket]
  { s with
    tickets := nextTickets
    persisted := { s.data with tickets := nextTickets } }

/-- `Partial<Ticket>` as used by `updateTicket`; a `none` field is an absent key. -/
structure TicketPatch where
  id : Option String
  key : Option String
  name : Option String
  storyPoints : Option ℚ
  developerId : Option String
  featureId : Option String
  sprintIds : Option (List String)
  dependencies : Option (List String)
  createdAt : Option Int
  jiraUrl : Option String
deriving DecidableEq, Repr

/-- The all-absent ticket patch. -/
def emptyTicketPatch : TicketPatch :=
  { id := none, key := none, name := none, storyPoints := none, developerId := none,
    featureId := none, sprintIds := none, dependencies := none, createdAt := none,
    jiraUrl := none }

/-- The object spread `{ ...ticket, ...patch }` inside `updateTicket`. -/
def applyTicketPatch (ticket : Ticket) (patch : TicketPatch) : Ticket :=
  { id := patch.id.getD ticket.id
    key := patch.key.getD ticket.key
    name := patch.name.getD ticket.name
    storyPoints := patch.storyPoints.getD ticket.storyPoints
    developerId := patch.developerId.getD ticket.developerId
    featureId := patch.featureId.getD ticket.featureId
    sprintIds := patch.sprintIds.getD ticket.sprintIds
    dependencies := patch.dependencies.getD ticket.dependencies
    createdAt := patch.createdAt.getD ticket.createdAt
    jiraUrl := match patch.jiraUrl with
      | some u => some u
      | none => ticket.jiraUrl }

/-- `updateTicket` from piStore.ts. -/
def updateTicket (id : String) (patch : TicketPatch) (s : PlannerStore) : PlannerStore :=
  let orderedSprintIds := orderedSprints s
  let nextTickets := s.tickets.map (fun ticket =>
    if ticket.id ≠ id then ticket
    else
      let developerId := patch.developerId.getD ticket.developerId
      let sprintIds0 :=
        match patch.sprintIds with
        | some ps => sortSprintTrail ps orderedSprintIds
        | none => ticket.sprintIds
      let sprintIds := if sprintIds0.length = 0 then [BACKLOG_COLUMN_ID] else sprintIds0
      let normalizedKey :=
        match patch.key with
        | none => ticket.key
        | some k => if trimString k = "" then ticket.key else upperString (trimString k)
      { applyTicketPatch ticket patch with
        key := normalizedKey
        developerId := developerId
        sprintIds := sprintIds
        jiraUrl := match patch.jiraUrl with
          | none => ticket.jiraUrl
          | some u => if trimString u = "" then none else some (trimString u) })
  { s with
    tickets := nextTickets
    persisted := { s.data with tickets := nextTickets } }

/-- `deleteTicket` from piStore.ts: drop the ticket and strip its id from every other
ticket's dependencies. -/
def deleteTicket (id : String) (s : PlannerStore) : PlannerStore :=
  let nextTickets := (s.tickets.filter (fun ticket => ticket.id != id)).map (fun ticket =>
    { ticket with dependencies := ticket.dependencies.filter (fun depId => depId != id) })
  { s with
    tickets := nextTickets
    persisted := { s.data with tickets := nextTickets } }

/-- `moveTicketTo` from piStore.ts.  Note the source performs no dependency check
here: the trail and developer are rewritten unconditionally. -/
def moveTicketTo (id toSprintId developerId : String) (mode : MoveMode)
    (s : PlannerStore) : PlannerStore :=
  let orderedSprintIds := orderedSprints s
  let nextTickets := s.tickets.map (fun ticket =>
    if ticket.id ≠ id then ticket
    else
      let baseTrail :=
        if mode = MoveMode.extend ∧ toSprintId ≠ BACKLOG_COLUMN_ID then
          sortSprintTrail (ticket.sprintIds ++ [toSprintId]) orderedSprintIds
        else [toSprintId]
      { ticket with
        sprintIds := if 0 < baseTrail.length then baseTrail else [BACKLOG_COLUMN_ID]
        developerId := developerId })
  { s with
    tickets := nextTickets
    persisted := { s.data with tickets := nextTickets } }

/-- `moveTicket` from piStore.ts: delegate to `moveTicketTo`, keeping the developer. -/
def moveTicket (id toSprintId : String) (mode : MoveMode) (s : PlannerStore) :
    PlannerStore :=
  match s.tickets.find? (fun t => t.id == id) with
  | none => s
  | some ticket => moveTicketTo id toSprintId ticket.developerId mode s

/-- `setSprintTrail` from piStore.ts. -/
def setSprintTrail (id : String) (sprintIds : List String) (s : PlannerStore) :
    PlannerStore :=
  let orderedSprintIds := orderedSprints s
  let nextTrail := sortSprintTrail sprintIds orderedSprintIds
  updateTicket id
    { emptyTicketPatch with
      sprintIds := some (if 0 < nextTrail.length then nextTrail else [BACKLOG_COLUMN_ID]) }
    s

/-- The store method `isMoveBlockedByDeps` of piStore.ts (wrapping the calc helper). -/
def storeIsMoveBlockedByDeps (s : PlannerStore) (ticketId targetSprintId : String) :
    BlockResult :=
  match s.tickets.find? (fun t => t.id == ticketId) with
  | none => { blocked := false, blockers := [] }
  | some ticket =>
      isMoveBlockedByDeps ticket targetSprintId
        (fun i => s.tickets.find? (fun t => t.id == i)) (orderedSprints s)

/-- `ensureUnassignedDeveloper` from piStore.ts. -/
def ensureUnassignedDeveloper (developers : List Developer) : List Developer :=
  if developers.any (fun dev => dev.id == UNASSIGNED_DEVELOPER_ID) then developers
  else { id := UNASSIGNED_DEVELOPER_ID, name := "Unassigned" } :: developers

/-- The body of the `while (result.length < REQUIRED_SPRINT_COUNT)` loop of
`ensureSprintSlots`; the loop adds one sprint per iteration, so
`REQUIRED_SPRINT_COUNT` iterations of fuel always suffice. -/
def appendSprintSlots : Nat → List Sprint → Int → List Sprint
  | 0, result, _ => result
  | Nat.succ fuel, result, nextOrder =>
      if result.length < REQUIRED_SPRINT_COUNT then
        appendSprintSlots fuel
          (result ++ [{ id := "S" ++ toString (result.length + 1)
                        name := "Sprint " ++ toString (result.length + 1)
                        order := nextOrder
                        capacityPerDevSP := some DEFAULT_SPRINT_CAPACITY }])
          (nextOrder + 1)
      else result

/-- `ensureSprintSlots` from piStore.ts. -/
def ensureSprintSlots (sprints : List Sprint) : List Sprint :=
  let sorted := List.insertionSort sprintLE sprints
  let nextOrder :=
    match sorted.getLast? with
    | some last => last.order + 1
    | none => 1
  appendSprintSlots REQUIRED_SPRINT_COUNT sorted nextOrder

/-- The per-ticket sanitizer inside `normalizeState` (the lambda passed to
`data.tickets.map`), with the surrounding id collections as explicit arguments. -/
def sanitizeTicket (developerIds featureIds : List String) (defaultFeatureId : String)
    (sprintSet sprintOrder ticketIds : List String) (ticket : Ticket) : Ticket :=
  let developerId :=
    if ticket.developerId ∈ developerIds then ticket.developerId
    else UNASSIGNED_DEVELOPER_ID
  let featureId :=
    if ticket.featureId ∈ featureIds then ticket.featureId else defaultFeatureId
  let trail :=
    sortSprintTrail (ticket.sprintIds.filter (fun i => decide (i ∈ sprintSet)))
      sprintOrder
  let dependencies :=
    (ticket.dependencies.filter (fun depId => depId != ticket.id)).filter
      (fun depId => decide (depId ∈ ticketIds))
  { ticket with
    developerId := developerId
    featureId := featureId
    sprintIds := if 0 < trail.length then trail else [BACKLOG_COLUMN_ID]
    dependencies := dependencies
    jiraUrl := match ticket.jiraUrl with
      | some u => if trimString u = "" then none else some (trimString u)
      | none => none }

/-- `normalizeState` from piStore.ts. -/
def normalizeState (data : PlannerData) : PlannerData :=
  let developers := ensureUnassignedDeveloper data.developers
  let sprints := ensureSprintSlots data.sprints
  let features :=
    if 0 < data.features.length then data.features
    else [{ id := "feature-default", name := "New Feature", url := none }]
  let featureIds := features.map (fun f => f.id)
  let developerIds := developers.map (fun d => d.id)
  let sprintOrder := sprints.map (fun sp => sp.id)
  let sprintSet := sprintOrder ++ [BACKLOG_COLUMN_ID]
  let ticketIds := data.tickets.map (fun t => t.id)
  let sanitizedTickets := data.tickets.map
    (sanitizeTicket developerIds featureIds
      ((features.head?.map (fun f => f.id)).getD "feature-default")
      sprintSet sprintOrder ticketIds)
  let ordered := List.insertionSort sprintLE sprints
  let fallbackCurrent := ordered.head?.map (fun sp => sp.id)
  let nextCurrentSprintId :=
    match data.currentSprintId with
    | some cur => if sprints.any (fun sp => sp.id == cur) then some cur else fallbackCurrent
    | none => fallbackCurrent
  { sprints := sprints
    developers := developers
    features := features
    tickets := sanitizedTickets
    currentSprintId := nextCurrentSprintId
    ticketBaseUrl := match data.ticketBaseUrl with
      | some u => if trimString u = "" then none else some (trimString u)
      | none => none }

/-- `replaceState` from piStore.ts: normalize, persist, set. -/
def replaceState (data : PlannerData) (s : PlannerStore) : PlannerStore :=
  let normalized := normalizeState data
  { s with
    sprints := normalized.sprints
    developers := normalized.developers
    features := normalized.features
    tickets := normalized.tickets
    currentSprintId := normalized.currentSprintId
    ticketBaseUrl := normalized.ticketBaseUrl
    persisted := normalized }

/-- `announce` from piStore.ts; `now` stands for `Date.now()`. -/
def announce (now : Int) (message : String) (s : PlannerStore) : PlannerStore :=
  { s with liveAnnouncement := some { message := message, timestamp := now } }

/-- `clearAnnouncement` from piStore.ts. -/
def clearAnnouncement (s : PlannerStore) : PlannerStore :=
  { s with liveAnnouncement := none }

/-- `beginKeyboardMove` from piStore.ts. -/
def beginKeyboardMove (ticketId : String) (s : PlannerStore) : PlannerStore :=
  match s.tickets.find? (fun t => t.id == ticketId) with
  | none => s
  | some ticket =>
      let next : KeyboardMoveState :=
        { ticketId := ticketId
          targetDeveloperId := ticket.developerId
          targetSprintId := currentSprintId ticket }
      { s with keyboardMove := some next }

/-- `clampIndex` from piStore.ts. -/
def clampIndex (value : Int) (length : Nat) : Int :=
  if length = 0 then 0
  else if value < 0 then 0
  else if value > (length : Int) - 1 then (length : Int) - 1
  else value

/-- The `axis` argument of `moveKeyboardTarget`. -/
inductive MoveAxis
  | row
  | column
deriving DecidableEq, Repr

/-- `moveKeyboardTarget` from piStore.ts. -/
def moveKeyboardTarget (axis : MoveAxis) (delta : Int) (s : PlannerStore) :
    PlannerStore :=
  match s.keyboardMove with
  | none => s
  | some move =>
      match axis with
      | MoveAxis.row =>
          let developers := s.developers
          let idx := jsIndexOf (developers.map (fun d => d.id)) move.targetDeveloperId
          let nextIdx := clampIndex (idx + delta) developers.length
          let nextId :=
            match developers.get? nextIdx.toNat with
            | some dev => dev.id
            | none => move.targetDeveloperId
          { s with keyboardMove := some { move with targetDeveloperId := nextId } }
      | MoveAxis.column =>
          let ids := orderedSprints s
          let augmented := BACKLOG_COLUMN_ID :: ids
          let idx := jsIndexOf augmented move.targetSprintId
          let nextIdx := clampIndex (idx + delta) augmented.length
          let nextId := (augmented.get? nextIdx.toNat).getD move.targetSprintId
          { s with keyboardMove := some { move with targetSprintId := nextId } }

/-- `commitKeyboardMove` from piStore.ts.  When the pending move is blocked the
function announces the blocking ticket keys and returns before any mutation. -/
def commitKeyboardMove (now : Int) (mode : MoveMode) (s : PlannerStore) : PlannerStore :=
  match s.keyboardMove with
  | none => s
  | some move =>
      let res := storeIsMoveBlockedByDeps s move.ticketId move.targetSprintId
      if res.blocked then
        let blockerKeys := String.intercalate ", "
          ((res.blockers.filterMap (fun i =>
            (s.tickets.find? (fun t => t.id == i)).map (fun t => t.key))).filter
              (fun k => k != ""))
        announce now ("Move blocked by " ++ blockerKeys) s
      else
        let actualMode := if move.targetSprintId = BACKLOG_COLUMN_ID then MoveMode.move else mode
        let s1 := moveTicketTo move.ticketId move.targetSprintId move.targetDeveloperId
          actualMode s
        let s2 :=
          match s1.tickets.find? (fun t => t.id == move.ticketId) with
          | none => s1
          | some ticket =>
              let developerName :=
                match s1.developers.find? (fun (d : Developer) => d.id == move.targetDeveloperId) with
                | some dev => dev.name
                | none => "Unknown"
              let sprintName :=
                if move.targetSprintId = BACKLOG_COLUMN_ID then "Backlog"
                else
                  match s1.sprints.find? (fun (sp : Sprint) => sp.id == move.targetSprintId) with
                  | some sp => sp.name
                  | none => move.targetSprintId
              announce now
                (ticket.key ++ " scheduled for " ++ developerName ++ " in " ++ sprintName)
                s1
        { s2 with keyboardMove := none }

/-- `cancelKeyboardMove` from piStore.ts. -/
def cancelKeyboardMove (s : PlannerStore) : PlannerStore :=
  { s with keyboardMove := none }

/-- `toggleDependencies` from piStore.ts. -/
def toggleDependencies (s : PlannerStore) : PlannerStore :=
  { s with showDependencies := !s.showDependencies }

/-- `setCurrentSprint` from piStore.ts.  The `commit` helper merges the patch with
`??`, so a `none` value keeps the previously persisted current sprint. -/
def setCurrentSprint (id : Option String) (s : PlannerStore) : PlannerStore :=
  let ordered := List.insertionSort sprintLE s.sprints
  let fallback := ordered.head?.map (fun sp => sp.id)
  let valid :=
    match id with
    | some i => if s.sprints.any (fun sp => sp.id == i) then some i else fallback
    | none => fallback
  let persistedCurrent :=
    match valid with
    | some v => some v
    | none => s.currentSprintId
  { s with
    currentSprintId := valid
    persisted := { s.data with currentSprintId := persistedCurrent } }

/-- `setTicketBaseUrl` from piStore.ts (same `??` quirk as `setCurrentSprint`:
a cleared url is not written through to storage). -/
def setTicketBaseUrl (now : Int) (url : Option String) (s : PlannerStore) :
    PlannerStore :=
  let trimmed :=
    match url with
    | some u => if 0 < (trimString u).length then some (trimString u) else none
    | none => none
  let persistedUrl :=
    match trimmed with
    | some t => some t
    | none => s.ticketBaseUrl
  let s1 :=
    { s with
      ticketBaseUrl := trimmed
      persisted := { s.data with ticketBaseUrl := persistedUrl } }
  match trimmed with
  | some t =>
      announce now
        ("Ticket links will now use " ++ t ++
          (match t.data.getLast? with
           | some c => if c = '/' then "" else "/"
           | none => "/") ++ " + key.") s1
  | none => announce now "Ticket link base cleared." s1

/-- `resetPlanner` from piStore.ts; `loaded` stands for the `loadPlannerState()`
result after clearing storage (a read of external browser storage that yields the
seed dataset). -/
def resetPlanner (loaded : PlannerData) (s : PlannerStore) : PlannerStore :=
  let seeded := normalizeState loaded
  let cleared : PlannerData :=
    { seeded with
      developers := [{ id := UNASSIGNED_DEVELOPER_ID, name := "Unassigned" }]
      features := []
      tickets := [] }
  { sprints := cleared.sprints
    developers := cleared.developers
    features := cleared.features
    tickets := cleared.tickets
    currentSprintId := cleared.currentSprintId
    ticketBaseUrl := cleared.ticketBaseUrl
    showDependencies := s.showDependencies
    keyboardMove := none
    liveAnnouncement := none
    persisted := cleared }

/-- `refreshTicketPositions` from piStore.ts sets a fresh array with the same
tickets: the state is unchanged in the model. -/
def refreshTicketPositions (s : PlannerStore) : PlannerStore :=
  s

/-- Every state-changing public operation of the Planner State Store, with the
environment inputs (`nanoid()`, `Date.now()`, storage reads) as explicit data. -/
inductive PlannerOp
  | addFeature (freshId name : String)
  | updateFeature (id : String) (patch : FeaturePatch)
  | removeFeature (id : String)
  | addDeveloper (freshId name : String)
  | updateDeveloper (id : String) (patch : DeveloperPatch)
  | removeDeveloper (id : String)
  | addTicket (freshId : String) (now : Int) (input : AddTicketInput)
  | updateTicket (id : String) (patch : TicketPatch)
  | deleteTicket (id : String)
  | moveTicket (id toSprintId : String) (mode : MoveMode)
  | moveTicketTo (id toSprintId developerId : String) (mode : MoveMode)
  | setSprintTrail (id : String) (sprintIds : List String)
  | refreshTicketPositions
  | replaceState (data : PlannerData)
  | announce (now : Int) (message : String)
  | clearAnnouncement
  | beginKeyboardMove (ticketId : String)
  | moveKeyboardTarget (axis : MoveAxis) (delta : Int)
  | commitKeyboardMove (now : Int) (mode : MoveMode)
  | cancelKeyboardMove
  | toggleDependencies
  | setCurrentSprint (id : Option String)
  | setTicketBaseUrl (now : Int) (url : Option String)
  | resetPlanner (loaded : PlannerData)
deriving DecidableEq, Repr

/-- Dispatch a store operation. -/
def applyOp (op : PlannerOp) (s : PlannerStore) : PlannerStore :=
  match op with
  | PlannerOp.addFeature freshId name => addFeature freshId name s
  | PlannerOp.updateFeature id patch => updateFeature id patch s
  | PlannerOp.removeFeature id => removeFeature id s
  | PlannerOp.addDeveloper freshId name => addDeveloper freshId name s
  | PlannerOp.updateDeveloper id patch => updateDeveloper id patch s
  | PlannerOp.removeDeveloper id => removeDeveloper id s
  | PlannerOp.addTicket freshId now input => addTicket freshId now input s
  | PlannerOp.updateTicket id patch => updateTicket id patch s
  | PlannerOp.deleteTicket id => deleteTicket id s
  | PlannerOp.moveTicket id toSprintId mode => moveTicket id toSprintId mode s
  | PlannerOp.moveTicketTo id toSprintId developerId mode =>
      moveTicketTo id toSprintId developerId mode s
  | PlannerOp.setSprintTrail id sprintIds => setSprintTrail id sprintIds s
  | PlannerOp.refreshTicketPositions => refreshTicketPositions s
  | PlannerOp.replaceState data => replaceState data s
  | PlannerOp.announce now message => announce now message s
  | PlannerOp.clearAnnouncement => clearAnnouncement s
  | PlannerOp.beginKeyboardMove ticketId => beginKeyboardMove ticketId s
  | PlannerOp.moveKeyboardTarget axis delta => moveKeyboardTarget axis delta s
  | PlannerOp.commitKeyboardMove now mode => commitKeyboardMove now mode s
  | PlannerOp.cancelKeyboardMove => cancelKeyboardMove s
  | PlannerOp.toggleDependencies => toggleDependencies s
  | PlannerOp.setCurrentSprint id => setCurrentSprint id s
  | PlannerOp.setTicketBaseUrl now url => setTicketBaseUrl now url s
  | PlannerOp.resetPlanner loaded => resetPlanner loaded s

theorem dedupeSeen_cons_nil (x : String) (xs : List String) :
    dedupeSeen (x :: xs) [] = x :: dedupeSeen xs [x] := by
  simp [dedupeSeen]

theorem sortSprintTrail_ne_nil (l o : List String) (h : l ≠ []) :
    sortSprintTrail l o ≠ [] := by
  unfold sortSprintTrail
  intro hc
  have hlen := congrArg List.length hc
  rw [List.length_insertionSort] at hlen
  cases l with
  | nil => exact h rfl
  | cons a xs => rw [dedupeSeen_cons_nil] at hlen; simp at hlen

/-- C10: `removeFeature` removes the feature with the given id from the feature
collection and deletes every ticket of that feature outright; features and tickets
not matching the id remain, unchanged. -/
theorem c10_removeFeature_spec (fid : String) (s : PlannerStore) :
    (∀ f, f ∈ (removeFeature fid s).features ↔ f ∈ s.features ∧ f.id ≠ fid) ∧
    (∀ t, t ∈ (removeFeature fid s).tickets ↔ t ∈ s.tickets ∧ t.featureId ≠ fid) := by
  constructor
  · intro f
    simp [removeFeature, List.mem_filter]
  · intro t
    simp [removeFeature, List.mem_filter]

/-- C7: after `deleteTicket X`, no ticket with id `X` remains, no remaining ticket's
dependency list contains `X`, and the surviving tickets are exactly the old non-`X`
tickets with only `X` filtered out of their dependencies (all other fields equal). -/
theorem c7_deleteTicket_spec (X : String) (s : PlannerStore) :
    (∀ t, t ∈ (deleteTicket X s).tickets → t.id ≠ X) ∧
    (∀ t, t ∈ (deleteTicket X s).tickets → X ∉ t.dependencies) ∧
    (∀ t, t ∈ s.tickets → t.id ≠ X →
      { t with dependencies := t.dependencies.filter (fun depId => depId != X) } ∈
        (deleteTicket X s).tickets) ∧
    (∀ t', t' ∈ (deleteTicket X s).tickets →
      ∃ t, t ∈ s.tickets ∧ t.id ≠ X ∧
        t' = { t with dependencies := t.dependencies.filter (fun depId => depId != X) }) := by
  refine ⟨?_, ?_, ?_, ?_⟩
  · intro t ht
    simp only [deleteTicket, List.mem_map, List.mem_filter, bne_iff_ne] at ht
    obtain ⟨u, ⟨hu, hid⟩, rfl⟩ := ht
    exact hid
  · intro t ht
    simp only [deleteTicket, List.mem_map, List.mem_filter, bne_iff_ne] at ht
    obtain ⟨u, ⟨hu, hid⟩, rfl⟩ := ht
    simp [List.mem_filter]
  · intro t ht hid
    simp only [deleteTicket, List.mem_map, List.mem_filter, bne_iff_ne]
    exact ⟨t, ⟨ht, hid⟩, rfl⟩
  · intro t' ht'
    simp only [deleteTicket, List.mem_map, List.mem_filter, bne_iff_ne] at ht'
    obtain ⟨u, ⟨hu, hid⟩, rfl⟩ := ht'
    exact ⟨u, hu, hid, rfl⟩

/-- Concrete sprints for witness states. -/
def wSprints : List Sprint :=
  [{ id := "S1", name := "Sprint 1", order := 1, capacityPerDevSP := some 8 },
   { id := "S2", name := "Sprint 2", order := 2, capacityPerDevSP := some 8 },
   { id := "S3", name := "Sprint 3", order := 3, capacityPerDevSP := some 8 },
   { id := "S4", name := "Sprint 4", order := 4, capacityPerDevSP := some 8 },
   { id := "S5", name := "Sprint 5", order := 5, capacityPerDevSP := some 8 },
   { id := "S6", name := "Sprint 6", order := 6, capacityPerDevSP := some 8 }]

/-- Concrete planner data for witness states: ticket `B` (in `S1`) depends on ticket
`A` (in `S3`) and on an unresolvable id. -/
def wData : PlannerData :=
  { sprints := wSprints
    developers := [{ id := UNASSIGNED_DEVELOPER_ID, name := "Unassigned" },
                   { id := "d1", name := "Dana" }]
    features := [{ id := "f1", name := "Feature One", url := none }]
    tickets := [wTicketA, wTicketB]
    currentSprintId := some "S1"
    ticketBaseUrl := none }

/-- Concrete store for witnesses and counterexamples. -/
def wStore : PlannerStore :=
  { sprints := wData.sprints
    developers := wData.developers
    features := wData.features
    tickets := wData.tickets
    currentSprintId := wData.currentSprintId
    ticketBaseUrl := wData.ticketBaseUrl
    showDependencies := true
    keyboardMove := none
    liveAnnouncement := none
    persisted := wData }

theorem c7_deleteTicket_spec_witness :
    wTicketB ∈ wStore.tickets ∧ wTicketB.id ≠ "A" ∧
    { wTicketB with
      dependencies := wTicketB.dependencies.filter (fun depId => depId != "A") } ∈
        (deleteTicket "A" wStore).tickets :=
  ⟨by decide, by decide,
    (c7_deleteTicket_spec "A" wStore).2.2.1 wTicketB (by decide) (by decide)⟩

/-- C4: `moveTicketTo` rewrites the moved ticket's sprint trail to the single-element
trail `[target]` under mode `move` or whenever the target is the Backlog sentinel,
and to the deduplicated, order-sorted extension of the existing trail under mode
`extend` with a non-Backlog target (the empty-trail fallback never fires); tickets
with other ids are untouched, and the moved ticket also takes the given developer. -/
theorem c4_moveTicketTo_spec (id toSprintId developerId : String) (mode : MoveMode)
    (s : PlannerStore) :
    (moveTicketTo id toSprintId developerId mode s).tickets =
      s.tickets.map (fun t =>
        if t.id = id then
          { t with
            sprintIds :=
              if mode = MoveMode.move ∨ toSprintId = BACKLOG_COLUMN_ID then [toSprintId]
              else sortSprintTrail (t.sprintIds ++ [toSprintId]) (orderedSprints s)
            developerId := developerId }
        else t) := by
  simp only [moveTicketTo]
  refine List.map_congr_left ?_
  intro t _
  by_cases hid : t.id = id
  · simp only [hid, if_pos rfl, ite_not]
    cases mode with
    | move =>
        simp
    | extend =>
        by_cases hb : toSprintId = BACKLOG_COLUMN_ID
        · simp [hb]
        · have hne : sortSprintTrail (t.sprintIds ++ [toSprintId]) (orderedSprints s) ≠ [] :=
            sortSprintTrail_ne_nil _ _ (by simp)
          have hlen : 0 < (sortSprintTrail (t.sprintIds ++ [toSprintId])
              (orderedSprints s)).length := List.length_pos.mpr hne
          simp [hb, hlen]
  · simp [hid]

theorem fallbackTrail_ne_nil (l : List String) :
    (if 0 < l.length then l else [BACKLOG_COLUMN_ID]) ≠ [] := by
  split
  · next h => exact List.length_pos.mp h
  · simp

theorem fallbackTrailEq_ne_nil (l : List String) :
    (if l.length = 0 then [BACKLOG_COLUMN_ID] else l) ≠ [] := by
  split
  · simp
  · next h => exact fun hc => h (by simp [hc])

theorem getLast?_eq_getD (l : List String) (h : l ≠ []) :
    l.getLast? = some (l.getD (l.length - 1) "") := by
  induction l with
  | nil => exact absurd rfl h
  | cons a t ih =>
      cases t with
      | nil => rfl
      | cons b t2 =>
          have hbt := ih (by simp)
          rw [List.getLast?_cons_cons, hbt]
          simp [List.getD_cons_succ]

theorem sanitizeTicket_trail_ne_nil (dIds fIds : List String) (dfid : String)
    (sSet sOrd tIds : List String) (t : Ticket) :
    (sanitizeTicket dIds fIds dfid sSet sOrd tIds t).sprintIds ≠ [] := by
  simp only [sanitizeTicket]
  exact fallbackTrail_ne_nil _

theorem normalizeState_trail_nonempty (data : PlannerData) :
    ∀ t ∈ (normalizeState data).tickets, t.sprintIds ≠ [] := by
  intro t ht
  simp only [normalizeState, List.mem_map] at ht
  obtain ⟨u, _, rfl⟩ := ht
  exact sanitizeTicket_trail_ne_nil _ _ _ _ _ _ u

theorem moveTicketTo_trail_nonempty (id toSprintId developerId : String)
    (mode : MoveMode) (s : PlannerStore) (hs : ∀ t ∈ s.tickets, t.sprintIds ≠ []) :
    ∀ t ∈ (moveTicketTo id toSprintId developerId mode s).tickets, t.sprintIds ≠ [] := by
  intro t ht
  simp only [moveTicketTo, List.mem_map] at ht
  obtain ⟨u, hu, rfl⟩ := ht
  by_cases hid : u.id = id
  · simp only [hid, ne_eq, not_true_eq_false, if_false]
    exact fallbackTrail_ne_nil _
  · simp only [ne_eq, hid, not_false_eq_true, if_true]
    exact hs u hu

theorem updateTicket_trail_nonempty (id : String) (patch : TicketPatch)
    (s : PlannerStore) (hs : ∀ t ∈ s.tickets, t.sprintIds ≠ []) :
    ∀ t ∈ (updateTicket id patch s).tickets, t.sprintIds ≠ [] := by
  intro t ht
  simp only [updateTicket, List.mem_map] at ht
  obtain ⟨u, hu, rfl⟩ := ht
  by_cases hid : u.id = id
  · simp only [hid, ne_eq, not_true_eq_false, if_false]
    exact fallbackTrailEq_ne_nil _
  · simp only [ne_eq, hid, not_false_eq_true, if_true]
    exact hs u hu

theorem addTicket_trail_nonempty (freshId : String) (now : Int)
    (input : AddTicketInput) (s : PlannerStore)
    (hs : ∀ t ∈ s.tickets, t.sprintIds ≠ []) :
    ∀ t ∈ (addTicket freshId now input s).tickets, t.sprintIds ≠ [] := by
  intro t ht
  simp only [addTicket, List.mem_append, List.mem_singleton] at ht
  cases ht with
  | inl h => exact hs t h
  | inr h =>
      subst h
      exact fallbackTrail_ne_nil _

theorem commitKeyboardMove_trail_nonempty (now : Int) (mode : MoveMode)
    (s : PlannerStore) (hs : ∀ t ∈ s.tickets, t.sprintIds ≠ []) :
    ∀ t ∈ (commitKeyboardMove now mode s).tickets, t.sprintIds ≠ [] := by
  intro t ht
  unfold commitKeyboardMove at ht
  cases hkm : s.keyboardMove with
  | none =>
      rw [hkm] at ht
      exact hs t ht
  | some move =>
      rw [hkm] at ht
      by_cases hb : (storeIsMoveBlockedByDeps s move.ticketId move.targetSprintId).blocked = true
      · simp only [hb, if_true, announce] at ht
        exact hs t ht
      · rw [Bool.not_eq_true] at hb
        simp only [hb, Bool.false_eq_true, if_false] at ht
        have hmv := moveTicketTo_trail_nonempty move.ticketId move.targetSprintId
          move.targetDeveloperId
          (if move.targetSprintId = BACKLOG_COLUMN_ID then MoveMode.move else mode) s hs
        cases hfind : (moveTicketTo move.ticketId move.targetSprintId move.targetDeveloperId
            (if move.targetSprintId = BACKLOG_COLUMN_ID then MoveMode.move else mode)
            s).tickets.find? (fun t => t.id == move.ticketId) with
      | none =>
          rw [hfind] at ht
          exact hmv t ht
      | some found =>
          rw [hfind] at ht
          simp only [announce] at ht
          exact hmv t ht

/-- The C9 invariant: every stored ticket has a non-empty sprint trail. -/
def ticketsNonempty (s : PlannerStore) : Prop :=
  ∀ t ∈ s.tickets, t.sprintIds ≠ []

theorem addFeature_tickets (freshId name : String) (s : PlannerStore) :
    (addFeature freshId name s).tickets = s.tickets := by
  simp only [addFeature]
  split <;> rfl

theorem updateFeature_tickets (id : String) (patch : FeaturePatch) (s : PlannerStore) :
    (updateFeature id patch s).tickets = s.tickets := rfl

theorem addDeveloper_tickets (freshId name : String) (s : PlannerStore) :
    (addDeveloper freshId name s).tickets = s.tickets := by
  simp only [addDeveloper]
  split <;> rfl

theorem updateDeveloper_tickets (id : String) (patch : DeveloperPatch)
    (s : PlannerStore) : (updateDeveloper id patch s).tickets = s.tickets := by
  simp only [updateDeveloper]
  split <;> rfl

theorem beginKeyboardMove_tickets (ticketId : String) (s : PlannerStore) :
    (beginKeyboardMove ticketId s).tickets = s.tickets := by
  simp only [beginKeyboardMove]
  split <;> rfl

theorem moveKeyboardTarget_tickets (axis : MoveAxis) (delta : Int) (s : PlannerStore) :
    (moveKeyboardTarget axis delta s).tickets = s.tickets := by
  simp only [moveKeyboardTarget]
  split
  · rfl
  · split <;> rfl

theorem setTicketBaseUrl_tickets (now : Int) (url : Option String) (s : PlannerStore) :
    (setTicketBaseUrl now url s).tickets = s.tickets := by
  simp only [setTicketBaseUrl, announce]
  split <;> rfl

/-- C9: every store operation preserves the invariant that each ticket's sprint trail
is non-empty (each trimming operation falls back to `[Backlog]`), and on any ticket
with a non-empty trail `currentSprintId` is the last trail element.  The notice-queue
operations, omitted from `PlannerOp`, only touch the notice list and no ticket. -/
theorem c9_trail_invariant :
    (∀ (op : PlannerOp) (s : PlannerStore), ticketsNonempty s →
      ticketsNonempty (applyOp op s)) ∧
    (∀ t : Ticket, t.sprintIds ≠ [] →
      t.sprintIds.getLast? = some (currentSprintId t)) := by
  constructor
  · intro op s hs
    cases op with
    | addFeature freshId name =>
        intro t ht
        rw [applyOp, addFeature_tickets] at ht
        exact hs t ht
    | updateFeature id patch =>
        intro t ht
        rw [applyOp, updateFeature_tickets] at ht
        exact hs t ht
    | removeFeature id =>
        intro t ht
        simp only [applyOp, removeFeature, List.mem_filter] at ht
        exact hs t ht.1
    | addDeveloper freshId name =>
        intro t ht
        rw [applyOp, addDeveloper_tickets] at ht
        exact hs t ht
    | updateDeveloper id patch =>
        intro t ht
        rw [applyOp, updateDeveloper_tickets] at ht
        exact hs t ht
    | removeDeveloper id =>
        intro t ht
        simp only [applyOp, removeDeveloper] at ht
        split at ht
        · exact hs t ht
        · simp only [List.mem_map] at ht
          obtain ⟨u, hu, rfl⟩ := ht
          by_cases hd : u.developerId = id
          · simp only [hd, if_pos rfl]
            exact hs u hu
          · simp only [hd, if_false]
            exact hs u hu
    | addTicket freshId now input =>
        exact addTicket_trail_nonempty freshId now input s hs
    | updateTicket id patch =>
        exact updateTicket_trail_nonempty id patch s hs
    | deleteTicket id =>
        intro t ht
        simp only [applyOp, deleteTicket, List.mem_map, List.mem_filter] at ht
        obtain ⟨u, ⟨hu, _⟩, rfl⟩ := ht
        exact hs u hu
    | moveTicket id toSprintId mode =>
        intro t ht
        simp only [applyOp, moveTicket] at ht
        split at ht
        · exact hs t ht
        · exact moveTicketTo_trail_nonempty _ _ _ _ s hs t ht
    | moveTicketTo id toSprintId developerId mode =>
        exact moveTicketTo_trail_nonempty id toSprintId developerId mode s hs
    | setSprintTrail id sprintIds =>
        intro t ht
        simp only [applyOp, setSprintTrail] at ht
        exact updateTicket_trail_nonempty _ _ s hs t ht
    | refreshTicketPositions =>
        exact hs
    | replaceState data =>
        intro t ht
        have : t ∈ (normalizeState data).tickets := ht
        exact normalizeState_trail_nonempty data t this
    | announce now message =>
        exact hs
    | clearAnnouncement =>
        exact hs
    | beginKeyboardMove ticketId =>
        intro t ht
        rw [applyOp, beginKeyboardMove_tickets] at ht
        exact hs t ht
    | moveKeyboardTarget axis delta =>
        intro t ht
        rw [applyOp, moveKeyboardTarget_tickets] at ht
        exact hs t ht
    | commitKeyboardMove now mode =>
        exact commitKeyboardMove_trail_nonempty now mode s hs
    | cancelKeyboardMove =>
        exact hs
    | toggleDependencies =>
        exact hs
    | setCurrentSprint id =>
        exact hs
    | setTicketBaseUrl now url =>
        intro t ht
        rw [applyOp, setTicketBaseUrl_tickets] at ht
        exact hs t ht
    | resetPlanner loaded =>
        intro t ht
        simp only [applyOp, resetPlanner, List.not_mem_nil] at ht
  · intro t ht
    rw [getLast?_eq_getD t.sprintIds ht]
    rfl

theorem c9_trail_invariant_witness :
    ticketsNonempty wStore ∧
    ticketsNonempty (applyOp (PlannerOp.moveTicketTo "B" "S2" "d1" MoveMode.move) wStore) ∧
    wTicketB.sprintIds ≠ [] ∧
    wTicketB.sprintIds.getLast? = some (currentSprintId wTicketB) :=
  ⟨by unfold ticketsNonempty; decide,
    c9_trail_invariant.1 (PlannerOp.moveTicketTo "B" "S2" "d1" MoveMode.move) wStore
      (by unfold ticketsNonempty; decide),
    by decide,
    c9_trail_invariant.2 wTicketB (by decide)⟩

/-- C5 counterexample: `updateTicket` installs a dependencies patch without any
validation, so a single update leaves ticket `B` depending on itself and on an id
that matches no ticket in the collection, contradicting the claim that each mutation
re-validates the dependency invariant. -/
theorem c5_counterexample :
    ∃ t, t ∈ (updateTicket "B"
        { emptyTicketPatch with dependencies := some ["B", "ghost"] } wStore).tickets ∧
      t.id ∈ t.dependencies ∧
      ∃ d, d ∈ t.dependencies ∧
        ∀ u, u ∈ (updateTicket "B"
            { emptyTicketPatch with dependencies := some ["B", "ghost"] } wStore).tickets →
          u.id ≠ d := by
  decide

/-- C5 amended: the dependency invariant is established by `normalizeState` (the
load/import/snapshot path), which strips self-references and ids absent from the
ticket collection; the add/update/move operations themselves do not re-validate it. -/
theorem c5_normalizeState_deps (data : PlannerData) :
    ∀ t ∈ (normalizeState data).tickets,
      t.id ∉ t.dependencies ∧
        ∀ d ∈ t.dependencies, ∃ u, u ∈ (normalizeState data).tickets ∧ u.id = d := by
  intro t ht
  simp only [normalizeState, List.mem_map] at ht
  obtain ⟨orig, horig, rfl⟩ := ht
  constructor
  · intro hself
    simp only [sanitizeTicket, List.mem_filter, bne_iff_ne, decide_eq_true_eq] at hself
    exact hself.1.2 rfl
  · intro d hd
    simp only [sanitizeTicket, List.mem_filter, bne_iff_ne, decide_eq_true_eq] at hd
    have hdid : d ∈ data.tickets.map (fun t => t.id) := hd.2
    simp only [List.mem_map] at hdid
    obtain ⟨u, hu, hid⟩ := hdid
    refine ⟨sanitizeTicket
        ((ensureUnassignedDeveloper data.developers).map (fun d => d.id))
        ((if 0 < data.features.length then data.features
          else [{ id := "feature-default", name := "New Feature", url := none }]).map
            (fun f => f.id))
        (((if 0 < data.features.length then data.features
          else [{ id := "feature-default", name := "New Feature",
                  url := none }]).head?.map (fun f => f.id)).getD "feature-default")
        ((ensureSprintSlots data.sprints).map (fun sp => sp.id) ++ [BACKLOG_COLUMN_ID])
        ((ensureSprintSlots data.sprints).map (fun sp => sp.id))
        (data.tickets.map (fun t => t.id)) u, ?_, ?_⟩
    · simp only [normalizeState, List.mem_map]
      exact ⟨u, hu, rfl⟩
    · simpa only [sanitizeTicket] using hid

/-- Ticket `B` with a self-reference and a dangling dependency, for the C5 witness. -/
def wTicketBadDeps : Ticket :=
  { wTicketB with dependencies := ["B", "A", "ghost"] }

/-- Planner data containing `wTicketBadDeps`, for the C5 witness. -/
def wDataBad : PlannerData :=
  { wData with tickets := [wTicketA, wTicketBadDeps] }

/-- The sanitized form of `wTicketBadDeps` produced by `normalizeState`. -/
def wSanB : Ticket :=
  { wTicketB with dependencies := ["A"] }

theorem c5_normalizeState_deps_witness :
    wSanB ∈ (normalizeState wDataBad).tickets ∧
    wSanB.id ∉ wSanB.dependencies ∧
    ("A" ∈ wSanB.dependencies ∧
      ∃ u, u ∈ (normalizeState wDataBad).tickets ∧ u.id = "A") :=
  ⟨by decide,
    (c5_normalizeState_deps wDataBad wSanB (by decide)).1,
    by decide,
    (c5_normalizeState_deps wDataBad wSanB (by decide)).2 "A" (by decide)⟩

/-- C1 counterexample: `moveTicketTo` never consults `isMoveBlockedByDeps`: moving
ticket `B` to `S2` is blocked by its dependency `A` (current sprint `S3`), yet
`moveTicketTo` mutates the ticket collection anyway. -/
theorem c1_counterexample :
    (storeIsMoveBlockedByDeps wStore "B" "S2").blocked = true ∧
    (moveTicketTo "B" "S2" "d1" MoveMode.move wStore).tickets ≠ wStore.tickets ∧
    (moveTicketTo "B" "S2" "d1" MoveMode.move wStore).persisted ≠ wStore.persisted := by
  decide

/-- C1 amended: of the store's move operations only `commitKeyboardMove` evaluates
the dependency check before mutating; when the pending keyboard move is blocked, the
four collections, the current-sprint selection, the persisted snapshot and the
pending move are all left unchanged, and the blocking tickets are surfaced through
the live announcement, listed by ticket key (ids resolved against the store;
unresolvable ids and empty keys are dropped).  `moveTicket` and `moveTicketTo` apply
the move unconditionally (see the counterexample). -/
theorem c1_commitKeyboardMove_blocked (now : Int) (mode : MoveMode) (s : PlannerStore)
    (move : KeyboardMoveState) (hkm : s.keyboardMove = some move)
    (hblocked :
      (storeIsMoveBlockedByDeps s move.ticketId move.targetSprintId).blocked = true) :
    (commitKeyboardMove now mode s).tickets = s.tickets ∧
    (commitKeyboardMove now mode s).sprints = s.sprints ∧
    (commitKeyboardMove now mode s).developers = s.developers ∧
    (commitKeyboardMove now mode s).features = s.features ∧
    (commitKeyboardMove now mode s).currentSprintId = s.currentSprintId ∧
    (commitKeyboardMove now mode s).persisted = s.persisted ∧
    (commitKeyboardMove now mode s).keyboardMove = s.keyboardMove ∧
    (commitKeyboardMove now mode s).liveAnnouncement =
      some { message := "Move blocked by " ++ String.intercalate ", "
              ((((storeIsMoveBlockedByDeps s move.ticketId
                    move.targetSprintId).blockers.filterMap (fun i =>
                  (s.tickets.find? (fun t => t.id == i)).map (fun t => t.key))).filter
                    (fun k => k != "")))
             timestamp := now } := by
  unfold commitKeyboardMove
  rw [hkm]
  simp [hblocked, announce, hkm]

/-- Pending keyboard move of `B` toward `S2`, for the C1 witness. -/
def wMove : KeyboardMoveState :=
  { ticketId := "B", targetDeveloperId := "d1", targetSprintId := "S2" }

/-- `wStore` with the pending keyboard move installed, for the C1 witness. -/
def wStoreKM : PlannerStore :=
  { wStore with keyboardMove := some wMove }

theorem c1_commitKeyboardMove_blocked_witness :
    wStoreKM.keyboardMove = some wMove ∧
    (storeIsMoveBlockedByDeps wStoreKM wMove.ticketId wMove.targetSprintId).blocked =
      true ∧
    (commitKeyboardMove 5 MoveMode.move wStoreKM).tickets = wStoreKM.tickets ∧
    (commitKeyboardMove 5 MoveMode.move wStoreKM).persisted = wStoreKM.persisted :=
  ⟨rfl, by decide,
    (c1_commitKeyboardMove_blocked 5 MoveMode.move wStoreKM wMove rfl (by decide)).1,
    (c1_commitKeyboardMove_blocked 5 MoveMode.move wStoreKM wMove rfl
      (by decide)).2.2.2.2.2.1⟩


/-- Exact rational addition, written through `mkRat` so that it reduces in the
kernel (the library `Rat.add` is marked irreducible); `qadd_eq` identifies it with
the field addition. -/
def qadd (a b : ℚ) : ℚ :=
  mkRat (a.num * b.den + b.num * a.den) (a.den * b.den)

/-- Exact rational subtraction through `mkRat`. -/
def qsub (a b : ℚ) : ℚ :=
  mkRat (a.num * b.den - b.num * a.den) (a.den * b.den)

/-- Exact rational multiplication through `mkRat`. -/
def qmul (a b : ℚ) : ℚ :=
  mkRat (a.num * b.num) (a.den * b.den)

/-- Exact rational division through `Rat.divInt`. -/
def qdiv (a b : ℚ) : ℚ :=
  Rat.divInt (a.num * b.den) ((a.den : Int) * b.num)

theorem qadd_eq (a b : ℚ) : qadd a b = a + b :=
  (Rat.add_def' a b).symm

theorem qsub_eq (a b : ℚ) : qsub a b = a - b :=
  (Rat.sub_def' a b).symm

theorem qmul_eq (a b : ℚ) : qmul a b = a * b := by
  conv_rhs => rw [← Rat.mkRat_self a, ← Rat.mkRat_self b, Rat.mkRat_mul_mkRat]
  rfl

theorem qdiv_eq (a b : ℚ) : qdiv a b = a / b := by
  by_cases hb : b.num = 0
  · rw [qdiv, hb, Int.mul_zero, Rat.divInt_zero, Rat.zero_iff_num_zero.mpr hb, div_zero]
  · rw [Rat.div_def, Rat.inv_def, qdiv]
    conv_rhs => rw [← Rat.num_divInt_den a]
    rw [Rat.divInt_mul_divInt _ _ (Int.natCast_ne_zero.mpr a.den_nz) hb]

/-- JavaScript `Math.floor` on exact rationals (the denominator is positive, so
floored integer division of the numerator is the floor). -/
def ratFloor (q : ℚ) : Int :=
  Int.fdiv q.num (Int.ofNat q.den)

/-- JavaScript `Math.ceil` on exact rationals. -/
def ratCeil (q : ℚ) : Int :=
  -(ratFloor (-q))

/-- `RectSnapshot` from `src/src/lib/geometry.ts` (the fields the router reads). -/
structure RectSnapshot where
  top : ℚ
  left : ℚ
  right : ℚ
  bottom : ℚ
  width : ℚ
  height : ℚ
deriving DecidableEq, Repr

/-- `RelativeRect` from the `DependencyOverlay` component. -/
structure RelativeRect where
  id : String
  left : ℚ
  right : ℚ
  top : ℚ
  bottom : ℚ
  width : ℚ
  height : ℚ
  centerX : ℚ
  centerY : ℚ
deriving DecidableEq, Repr

/-- A 2-d point of the router. -/
structure Point where
  x : ℚ
  y : ℚ
deriving DecidableEq, Repr

/-- Router constant `CLEARANCE`. -/
def CLEARANCE : ℚ := 6

/-- Router constant `GUTTER_BASE`. -/
def GUTTER_BASE : ℚ := 28

/-- Router constant `GUTTER_STEP`. -/
def GUTTER_STEP : ℚ := 18

/-- Router constant `GUTTER_ATTEMPTS`. -/
def GUTTER_ATTEMPTS : Nat := 5

/-- Router constant `LANE_STEP`. -/
def LANE_STEP : ℚ := 32

/-- Router constant `MIN_Y`. -/
def MIN_Y : ℚ := 12

/-- Router constant `MAX_Y` (`Math.max(MIN_Y + 4, containerRect.height - 12)`). -/
def maxYOf (containerRect : RectSnapshot) : ℚ :=
  max (qadd MIN_Y 4) (qsub containerRect.height 12)

/-- `toRelativeRect` from the `DependencyOverlay` component. -/
def toRelativeRect (containerRect : RectSnapshot) (id : String) (rect : RectSnapshot) :
    RelativeRect :=
  let left := qsub rect.left containerRect.left
  let right := qsub rect.right containerRect.left
  let top := qsub rect.top containerRect.top
  let bottom := qsub rect.bottom containerRect.top
  { id := id
    left := left
    right := right
    top := top
    bottom := bottom
    width := rect.width
    height := rect.height
    centerX := qadd left (qdiv rect.width 2)
    centerY := qadd top (qdiv rect.height 2) }

/-- `clamp` from the `DependencyOverlay` component:
`Math.min(max, Math.max(min, value))`. -/
def clampQ (value lo hi : ℚ) : ℚ :=
  min hi (max lo value)

/-- `horizontalBlocked` from the router: does a horizontal segment at height `y`
between `x1` and `x2` hit any non-ignored rectangle, with `CLEARANCE` margin. -/
def horizontalBlocked (rectList : List RelativeRect) (y x1 x2 : ℚ)
    (ignore : List String) : Bool :=
  let minX := min x1 x2
  let maxX := max x1 x2
  rectList.any (fun rect =>
    !(decide (rect.id ∈ ignore)) &&
      (decide (qsub rect.top CLEARANCE ≤ y) && decide (y ≤ qadd rect.bottom CLEARANCE)) &&
      (decide (qsub rect.left CLEARANCE ≤ maxX) && decide (minX ≤ qadd rect.right CLEARANCE)))

/-- `verticalBlocked` from the router. -/
def verticalBlocked (rectList : List RelativeRect) (x y1 y2 : ℚ)
    (ignore : List String) : Bool :=
  let minY := min y1 y2
  let maxY := max y1 y2
  rectList.any (fun rect =>
    !(decide (rect.id ∈ ignore)) &&
      (decide (qsub rect.left CLEARANCE ≤ x) && decide (x ≤ qadd rect.right CLEARANCE)) &&
      (decide (qsub rect.top CLEARANCE ≤ maxY) && decide (minY ≤ qadd rect.bottom CLEARANCE)))

/-- JavaScript `Math.round` (round half toward positive infinity) on exact rationals,
scaled to one decimal as in `dedupePoints`: `Math.round(v * 10) / 10`. -/
def roundTenth (q : ℚ) : ℚ :=
  mkRat (ratFloor (qadd (qmul q 10) (mkRat 1 2))) 10

/-- `dedupePoints` from the router: drop a point equal to the previously kept
(already rounded) point, rounding each kept point to a tenth. -/
def dedupePoints (pts : List Point) : List Point :=
  pts.foldl (fun reduced pt =>
    match reduced.getLast? with
    | some last =>
        if last.x = pt.x ∧ last.y = pt.y then reduced
        else reduced ++ [{ x := roundTenth pt.x, y := roundTenth pt.y }]
    | none => reduced ++ [{ x := roundTenth pt.x, y := roundTenth pt.y }]) []

/-- The offset list built at the top of `findLaneY`: the rounded lane preference
first (when non-zero), then the default offsets not already present.  The
`Number.isNaN` guard of the source can never fire on exact rationals. -/
def laneOffsets (lanePreference : Int) : List Int :=
  let defaults : List Int := [0, 1, -1, 2, -2, 3, -3, 4, -4, 5, -5]
  let base : List Int :=
    if lanePreference ≠ 0 then
      [(max 1 (lanePreference.natAbs : Int)) * lanePreference.sign]
    else []
  defaults.foldl (fun acc o => if o ∈ acc then acc else acc ++ [o]) base

/-- The nested candidate loop of `findLaneY`, flattened over (base, offset) pairs,
threading the `tested` set. -/
def findLaneYGo (rectList : List RelativeRect) (startRect endRect : RelativeRect)
    (exitX entryX startAnchorY endAnchorY minY maxY : ℚ) :
    List (ℚ × Int) → List ℚ → Option ℚ
  | [], _ => none
  | (base, offset) :: rest, tested =>
      let candidate := clampQ (qadd base (qmul ((offset : Int) : ℚ) LANE_STEP)) minY maxY
      if candidate ∈ tested then
        findLaneYGo rectList startRect endRect exitX entryX startAnchorY endAnchorY
          minY maxY rest tested
      else
        if (qsub startRect.top CLEARANCE < candidate ∧ candidate < qadd startRect.bottom CLEARANCE) ∨
            (qsub endRect.top CLEARANCE < candidate ∧ candidate < qadd endRect.bottom CLEARANCE) then
          findLaneYGo rectList startRect endRect exitX entryX startAnchorY endAnchorY
            minY maxY rest (candidate :: tested)
        else if horizontalBlocked rectList candidate exitX entryX
            [startRect.id, endRect.id] then
          findLaneYGo rectList startRect endRect exitX entryX startAnchorY endAnchorY
            minY maxY rest (candidate :: tested)
        else if verticalBlocked rectList exitX startAnchorY candidate [startRect.id] then
          findLaneYGo rectList startRect endRect exitX entryX startAnchorY endAnchorY
            minY maxY rest (candidate :: tested)
        else if verticalBlocked rectList entryX endAnchorY candidate [endRect.id] then
          findLaneYGo rectList startRect endRect exitX entryX startAnchorY endAnchorY
            minY maxY rest (candidate :: tested)
        else some candidate

/-- `findLaneY` from the router. -/
def findLaneY (rectList : List RelativeRect) (containerRect : RectSnapshot)
    (basePrefersDown : Bool) (startRect endRect : RelativeRect) (exitX entryX : ℚ)
    (lanePreference : Int) (startAnchorY endAnchorY : ℚ) : Option ℚ :=
  let minY := MIN_Y
  let maxY := maxYOf containerRect
  let downStart := clampQ (qadd (max startRect.bottom endRect.bottom) 20) minY maxY
  let upStart := clampQ (qsub (min startRect.top endRect.top) 20) minY maxY
  let orderedBases := if basePrefersDown then [downStart, upStart] else [upStart, downStart]
  let offsets := laneOffsets lanePreference
  let pairs := (orderedBases.map (fun b => offsets.map (fun o => (b, o)))).flatten
  findLaneYGo rectList startRect endRect exitX entryX startAnchorY endAnchorY
    minY maxY pairs []

/-- The gutter-attempt loop of `buildCrossColumnPath`. -/
def buildCrossColumnPathGo (rectList : List RelativeRect)
    (containerRect : RectSnapshot) (startRect endRect : RelativeRect)
    (startAnchorY endAnchorY : ℚ) (horizontalDir : Int) (laneOffsetIndex : Int)
    (preferDown : Bool) (startEdgeX endEdgeX : ℚ) : List Nat → Option (List Point)
  | [] => none
  | attempt :: rest =>
      let gutter := qadd (qadd GUTTER_BASE (qmul ((laneOffsetIndex.natAbs : Nat) : ℚ) GUTTER_STEP))
        (qmul ((attempt : Nat) : ℚ) 6)
      let exitX := qadd startEdgeX (qmul ((horizontalDir : Int) : ℚ) gutter)
      let entryX := qsub endEdgeX (qmul ((horizontalDir : Int) : ℚ) gutter)
      if verticalBlocked rectList exitX startAnchorY startAnchorY [startRect.id] then
        buildCrossColumnPathGo rectList containerRect startRect endRect startAnchorY
          endAnchorY horizontalDir laneOffsetIndex preferDown startEdgeX endEdgeX rest
      else
        match findLaneY rectList containerRect preferDown startRect endRect exitX entryX
            laneOffsetIndex startAnchorY endAnchorY with
        | none =>
            buildCrossColumnPathGo rectList containerRect startRect endRect startAnchorY
              endAnchorY horizontalDir laneOffsetIndex preferDown startEdgeX endEdgeX rest
        | some laneY =>
            some (dedupePoints
              [{ x := startEdgeX, y := startAnchorY },
               { x := exitX, y := startAnchorY },
               { x := exitX, y := laneY },
               { x := entryX, y := laneY },
               { x := entryX, y := endAnchorY },
               { x := endEdgeX, y := endAnchorY }])

/-- `buildCrossColumnPath` from the router. -/
def buildCrossColumnPath (rectList : List RelativeRect) (containerRect : RectSnapshot)
    (startRect endRect : RelativeRect) (startAnchorY endAnchorY : ℚ)
    (horizontalDir : Int) (laneOffsetIndex : Int) : Option (List Point) :=
  let preferDown :=
    if laneOffsetIndex = 0 then decide (startRect.centerY ≤ endRect.centerY)
    else decide (0 < laneOffsetIndex)
  let startEdgeX := if 0 < horizontalDir then startRect.right else startRect.left
  let endEdgeX := if 0 < horizontalDir then endRect.left else endRect.right
  buildCrossColumnPathGo rectList containerRect startRect endRect startAnchorY
    endAnchorY horizontalDir laneOffsetIndex preferDown startEdgeX endEdgeX
    (List.range GUTTER_ATTEMPTS)

/-- Router constant `SAME_COLUMN_BASE`. -/
def SAME_COLUMN_BASE : ℚ := 28

/-- Router constant `SAME_COLUMN_STEP`. -/
def SAME_COLUMN_STEP : ℚ := 22

/-- The direction loop of `buildSameColumnPath`. -/
def buildSameColumnPathGo (rectList : List RelativeRect) (containerRect : RectSnapshot)
    (startRect endRect : RelativeRect) (startAnchorY endAnchorY : ℚ)
    (laneIndex : Nat) : List Int → Option (List Point)
  | [] => none
  | dir :: rest =>
      let startEdgeX := if 0 < dir then startRect.right else startRect.left
      let endEdgeX := if 0 < dir then endRect.right else endRect.left
      let laneXRaw := qadd startEdgeX
        (qmul ((dir : Int) : ℚ) (qadd SAME_COLUMN_BASE (qmul ((laneIndex : Nat) : ℚ) SAME_COLUMN_STEP)))
      let laneX := clampQ laneXRaw 4 (qsub containerRect.width 4)
      if verticalBlocked rectList laneX (min startAnchorY endAnchorY)
          (max startAnchorY endAnchorY) [startRect.id, endRect.id] then
        buildSameColumnPathGo rectList containerRect startRect endRect startAnchorY
          endAnchorY laneIndex rest
      else
        some (dedupePoints
          [{ x := startEdgeX, y := startAnchorY },
           { x := laneX, y := startAnchorY },
           { x := laneX, y := endAnchorY },
           { x := endEdgeX, y := endAnchorY }])

/-- `buildSameColumnPath` from the router. -/
def buildSameColumnPath (rectList : List RelativeRect) (containerRect : RectSnapshot)
    (startRect endRect : RelativeRect) (startAnchorY endAnchorY : ℚ)
    (laneIndex : Nat) : Option (List Point) :=
  let rightSpace := qsub containerRect.width (max startRect.right endRect.right)
  let leftSpace := min startRect.left endRect.left
  let directions : List Int := if leftSpace ≤ rightSpace then [1, -1] else [-1, 1]
  buildSameColumnPathGo rectList containerRect startRect endRect startAnchorY
    endAnchorY laneIndex directions

/-- `buildPath` from the router. -/
def buildPath (rectList : List RelativeRect) (containerRect : RectSnapshot)
    (startRect endRect : RelativeRect) (startAnchorY endAnchorY : ℚ)
    (sameColumn : Bool) (horizontalDir : Int) (laneOffsetIndex : Int)
    (laneIndexSameColumn : Nat) : Option (List Point) :=
  if sameColumn then
    buildSameColumnPath rectList containerRect startRect endRect startAnchorY
      endAnchorY laneIndexSameColumn
  else
    buildCrossColumnPath rectList containerRect startRect endRect startAnchorY
      endAnchorY horizontalDir laneOffsetIndex

/-- `Segment` from the router, with `idx` recording the position in the extraction
order (standing for JavaScript object identity, which slot assignment mutates). -/
structure Segment where
  idx : Nat
  fromId : String
  toId : String
  startRect : RelativeRect
  endRect : RelativeRect
  startSprintIdx : Int
  endSprintIdx : Int
  sameColumn : Bool
  horizontalDir : Int
  groupKey : String
  orderKey : ℚ
  startSideKey : String
  endSideKey : String
  startSlot : Option Nat
  endSlot : Option Nat
deriving DecidableEq, Repr

/-- First-match lookup in the ticket-id → rectangle map (keys are unique, so this
matches the JavaScript `Map.get`). -/
def lookupRect (rectMap : List (String × RelativeRect)) (key : String) :
    Option RelativeRect :=
  (rectMap.find? (fun p => p.1 == key)).map (fun p => p.2)

/-- The body of the per-dependency loop building `segments` in the router: skip
filtered and unresolvable edges, classify columns and sides.  `idx` is filled in by
the caller. -/
def segmentFor (rectMap : List (String × RelativeRect)) (tickets : List Ticket)
    (orderedSprintIds : List String) (activeTicketId : Option String)
    (ticket : Ticket) (depId : String) : Option Segment :=
  let skip : Bool :=
    match activeTicketId with
    | some active => decide (active ≠ depId ∧ active ≠ ticket.id)
    | none => false
  if skip then none
  else
    match tickets.find? (fun item => item.id == depId) with
    | none => none
    | some fromTicket =>
        match lookupRect rectMap depId, lookupRect rectMap ticket.id with
        | some startRect, some endRect =>
            let startSprintIdx := jsIndexOf orderedSprintIds (currentSprintId fromTicket)
            let endSprintIdx := jsIndexOf orderedSprintIds (currentSprintId ticket)
            if startSprintIdx = -1 ∨ endSprintIdx = -1 then none
            else
              let sameColumn := decide (startSprintIdx = endSprintIdx)
              let horizontalDir : Int :=
                if startRect.centerX ≤ endRect.centerX then 1 else -1
              let startSide := if 0 < horizontalDir then "right" else "left"
              let endSide := if 0 < horizontalDir then "left" else "right"
              some { idx := 0
                     fromId := depId
                     toId := ticket.id
                     startRect := startRect
                     endRect := endRect
                     startSprintIdx := startSprintIdx
                     endSprintIdx := endSprintIdx
                     sameColumn := sameColumn
                     horizontalDir := horizontalDir
                     groupKey :=
                       if sameColumn then "col-" ++ toString startSprintIdx
                       else "row-" ++ toString startSprintIdx ++ "-" ++
                         toString endSprintIdx ++ "-" ++
                         (if 0 < horizontalDir then "r" else "l")
                     orderKey := qdiv (qadd startRect.centerY endRect.centerY) 2
                     startSideKey := depId ++ ":" ++ startSide
                     endSideKey := ticket.id ++ ":" ++ endSide
                     startSlot := none
                     endSlot := none }
        | _, _ => none

/-- The anchor key read by `assignSlots`: start side or end side. -/
def keyOf (byStart : Bool) (s : Segment) : String :=
  if byStart then s.startSideKey else s.endSideKey

/-- The comparator of `assignSlots` as a total preorder: primary the own-side
vertical center, secondary the counterpart's vertical center. -/
def slotLE (byStart : Bool) (a b : Segment) : Prop :=
  if byStart then
    a.startRect.centerY < b.startRect.centerY ∨
      (a.startRect.centerY = b.startRect.centerY ∧
        a.endRect.centerY ≤ b.endRect.centerY)
  else
    a.endRect.centerY < b.endRect.centerY ∨
      (a.endRect.centerY = b.endRect.centerY ∧
        a.startRect.centerY ≤ b.startRect.centerY)

instance (byStart : Bool) : DecidableRel (slotLE byStart) := by
  intro a b
  unfold slotLE
  infer_instance

theorem lexLE_total (p1 p2 s1 s2 : ℚ) :
    (p1 < p2 ∨ (p1 = p2 ∧ s1 ≤ s2)) ∨ (p2 < p1 ∨ (p2 = p1 ∧ s2 ≤ s1)) := by
  rcases lt_trichotomy p1 p2 with h | h | h
  · exact Or.inl (Or.inl h)
  · rcases le_total s1 s2 with h2 | h2
    · exact Or.inl (Or.inr ⟨h, h2⟩)
    · exact Or.inr (Or.inr ⟨h.symm, h2⟩)
  · exact Or.inr (Or.inl h)

theorem lexLE_trans {p1 p2 p3 s1 s2 s3 : ℚ}
    (h12 : p1 < p2 ∨ (p1 = p2 ∧ s1 ≤ s2)) (h23 : p2 < p3 ∨ (p2 = p3 ∧ s2 ≤ s3)) :
    p1 < p3 ∨ (p1 = p3 ∧ s1 ≤ s3) := by
  rcases h12 with h | ⟨h, hs⟩ <;> rcases h23 with h2 | ⟨h2, hs2⟩
  · exact Or.inl (lt_trans h h2)
  · exact Or.inl (h2 ▸ h)
  · exact Or.inl (h ▸ h2)
  · exact Or.inr ⟨h.trans h2, le_trans hs hs2⟩

instance (byStart : Bool) : IsTotal Segment (slotLE byStart) := by
  constructor
  intro a b
  cases byStart
  · exact lexLE_total a.endRect.centerY b.endRect.centerY
      a.startRect.centerY b.startRect.centerY
  · exact lexLE_total a.startRect.centerY b.startRect.centerY
      a.endRect.centerY b.endRect.centerY

instance (byStart : Bool) : IsTrans Segment (slotLE byStart) := by
  constructor
  intro a b c hab hbc
  cases byStart
  · exact lexLE_trans hab hbc
  · exact lexLE_trans hab hbc

/-- The `sorted.forEach` walk of `assignSlots`: thread the `assigned` per-key
counter, producing a slot for every segment in sorted order (slot `0` when the key's
total is at most one). -/
def assignGo (totals : String → Nat) (byStart : Bool) :
    List Segment → List (String × Nat) → List (Segment × Nat)
  | [], _ => []
  | seg :: rest, assigned =>
      let mapKey := keyOf byStart seg
      let total := totals mapKey
      if total ≤ 1 then (seg, 0) :: assignGo totals byStart rest assigned
      else
        let next := (((assigned.find? (fun p => p.1 == mapKey)).map
          (fun p => p.2)).getD 0)
        (seg, next) :: assignGo totals byStart rest ((mapKey, next + 1) :: assigned)

/-- The write-back of `assignSlots`: set the computed slot on the segment it was
computed for, located by `idx` (standing for object identity under the JavaScript
in-place mutation). -/
def writeSlot (byStart : Bool) (pairs : List (Segment × Nat)) (seg : Segment) :
    Segment :=
  match pairs.find? (fun p => p.1.idx == seg.idx) with
  | some p =>
      if byStart then { seg with startSlot := some p.2 }
      else { seg with endSlot := some p.2 }
  | none => seg

/-- `assignSlots` from the router: sort by the comparator, walk the per-key counter,
and write each computed slot back onto its segment. -/
def assignSlots (totals : String → Nat) (byStart : Bool)
    (segments : List Segment) : List Segment :=
  let sorted := List.insertionSort (slotLE byStart) segments
  let pairs := assignGo totals byStart sorted []
  segments.map (writeSlot byStart pairs)

/-- `computeAnchor` from the router. -/
def computeAnchor (rect : RelativeRect) (slot : Option Nat) (total : Nat) : ℚ :=
  match slot with
  | none => rect.centerY
  | some sl =>
      if total ≤ 1 then rect.centerY
      else
        let clampedSlot : Nat := max 0 (min sl (total - 1))
        let step := qdiv rect.height ((total + 1 : Nat) : ℚ)
        qadd rect.top (qmul step ((clampedSlot + 1 : Nat) : ℚ))

/-- The per-key totals map (`startTotals`/`endTotals`), read back as a count. -/
def countKey (segs : List Segment) (proj : Segment → String) (k : String) : Nat :=
  (segs.filter (fun s => proj s == k)).length

/-- A routed dependency edge; the component renders `points` as the SVG path string
`M x0 y0 L x1 y1 ...`. -/
structure RoutedPath where
  fromId : String
  toId : String
  points : List Point
deriving DecidableEq, Repr

/-- The per-group comparator `(a, b) => a.orderKey - b.orderKey`. -/
def orderKeyLE (a b : Segment) : Prop :=
  a.orderKey ≤ b.orderKey

instance : DecidableRel orderKeyLE :=
  fun a b => inferInstanceAs (Decidable (a.orderKey ≤ b.orderKey))

instance : IsTotal Segment orderKeyLE :=
  ⟨fun a b => le_total a.orderKey b.orderKey⟩

instance : IsTrans Segment orderKeyLE :=
  ⟨fun _ _ _ hab hbc => le_trans hab hbc⟩

/-- The per-group routing loop of the router (`grouped.forEach` body): sort the
group by `orderKey`, derive the centred lane-offset index, compute the anchors and
emit the built path when it has at least two points. -/
def routeGroup (rectList : List RelativeRect) (containerRect : RectSnapshot)
    (startTotals endTotals : String → Nat) (list : List Segment) : List RoutedPath :=
  let sorted := List.insertionSort orderKeyLE list
  sorted.enum.filterMap (fun p =>
    let idx : Nat := p.1
    let segment : Segment := p.2
    let span : ℚ := qdiv (qsub ((sorted.length : Nat) : ℚ) 1) 2
    let relative : ℚ := qsub ((idx : Nat) : ℚ) span
    let laneOffsetIndex : Int :=
      if segment.sameColumn then (idx : Int)
      else if relative = 0 then 0
      else if 0 < relative then ratCeil relative else ratFloor relative
    let startTotal := startTotals segment.startSideKey
    let endTotal := endTotals segment.endSideKey
    let startAnchorY := computeAnchor segment.startRect segment.startSlot startTotal
    let endAnchorY := computeAnchor segment.endRect segment.endSlot endTotal
    match buildPath rectList containerRect segment.startRect segment.endRect
        startAnchorY endAnchorY segment.sameColumn segment.horizontalDir
        laneOffsetIndex idx with
    | some points =>
        if 2 ≤ points.length then
          some { fromId := segment.fromId, toId := segment.toId, points := points }
        else none
    | none => none)

/-- The full path computation of the `DependencyOverlay` component (the `paths`
`useMemo` body) for a visible overlay: ticket-id → rectangle snapshots, the ticket
list, the ordered sprint-column ids, the container rectangle and the drag state map
to routed polylines. -/
def routePaths (positions : List (String × RectSnapshot)) (tickets : List Ticket)
    (orderedSprintIds : List String) (containerRect : RectSnapshot)
    (activeTicketId : Option String) (activeRectSnapshot : Option RectSnapshot) :
    List RoutedPath :=
  let rectMap0 : List (String × RelativeRect) :=
    positions.map (fun p => (p.1, toRelativeRect containerRect p.1 p.2))
  let rectMap : List (String × RelativeRect) :=
    match activeTicketId, activeRectSnapshot with
    | some active, some rect =>
        if (rectMap0.find? (fun p => p.1 == active)).isNone then
          rectMap0 ++ [(active, toRelativeRect containerRect active rect)]
        else rectMap0
    | _, _ => rectMap0
  let rectList : List RelativeRect := rectMap.map (fun p => p.2)
  if rectList.length = 0 then []
  else
    let segs0 := tickets.flatMap (fun ticket =>
      ticket.dependencies.filterMap (fun depId =>
        segmentFor rectMap tickets orderedSprintIds activeTicketId ticket depId))
    let segs1 := segs0.enum.map (fun p => { p.2 with idx := p.1 })
    let startTotals := fun k => countKey segs1 (fun s => s.startSideKey) k
    let endTotals := fun k => countKey segs1 (fun s => s.endSideKey) k
    let segs2 := assignSlots startTotals true segs1
    let segs3 := assignSlots endTotals false segs2
    (dedupeSeen (segs3.map (fun s => s.groupKey)) []).flatMap (fun k =>
      routeGroup rectList containerRect startTotals endTotals
        (segs3.filter (fun s => s.groupKey == k)))

/-- A point lying on the axis-aligned segment from `a` to `b`. -/
def onSegment (p a b : Point) : Prop :=
  (a.y = b.y ∧ p.y = a.y ∧ min a.x b.x ≤ p.x ∧ p.x ≤ max a.x b.x) ∨
  (a.x = b.x ∧ p.x = a.x ∧ min a.y b.y ≤ p.y ∧ p.y ≤ max a.y b.y)

instance (p a b : Point) : Decidable (onSegment p a b) := by
  unfold onSegment
  infer_instance

/-- A point strictly inside a rectangle. -/
def strictlyInside (p : Point) (r : RelativeRect) : Prop :=
  r.left < p.x ∧ p.x < r.right ∧ r.top < p.y ∧ p.y < r.bottom

instance (p : Point) (r : RelativeRect) : Decidable (strictlyInside p r) := by
  unfold strictlyInside
  infer_instance

/-- Container rectangle of the C3 counterexample. -/
def cexContainer : RectSnapshot :=
  { top := 0, left := 0, right := 600, bottom := 300, width := 600, height := 300 }

/-- Rectangle of ticket `a` (dependency, column `S1`). -/
def cexRectA : RectSnapshot :=
  { top := 0, left := 0, right := 100, bottom := 50, width := 100, height := 50 }

/-- Rectangle of ticket `b` (dependent, column `S2`). -/
def cexRectB : RectSnapshot :=
  { top := 0, left := 400, right := 500, bottom := 50, width := 100, height := 50 }

/-- Rectangle of ticket `c`: an obstacle sitting just right of `a`, inside the
horizontal stub of the emitted path but clear of the checked gutter verticals. -/
def cexRectC : RectSnapshot :=
  { top := 10, left := 104, right := 112, bottom := 40, width := 8, height := 30 }

/-- Ticket `a` of the C3 counterexample. -/
def cexTicketA : Ticket :=
  { id := "a", key := "A-1", name := "a", storyPoints := 1, developerId := "d1",
    featureId := "f1", sprintIds := ["S1"], dependencies := [], createdAt := 0,
    jiraUrl := none }

/-- Ticket `b` of the C3 counterexample, depending on `a`. -/
def cexTicketB : Ticket :=
  { id := "b", key := "B-1", name := "b", storyPoints := 1, developerId := "d1",
    featureId := "f1", sprintIds := ["S2"], dependencies := ["a"], createdAt := 0,
    jiraUrl := none }

/-- Ticket `c` of the C3 counterexample (the obstacle). -/
def cexTicketC : Ticket :=
  { id := "c", key := "C-1", name := "c", storyPoints := 1, developerId := "d1",
    featureId := "f1", sprintIds := ["S1"], dependencies := [], createdAt := 0,
    jiraUrl := none }

/-- Position map of the C3 counterexample. -/
def cexPositions : List (String × RectSnapshot) :=
  [("a", cexRectA), ("b", cexRectB), ("c", cexRectC)]

/-- Ticket list of the C3 counterexample. -/
def cexTickets : List Ticket :=
  [cexTicketA, cexTicketB, cexTicketC]

/-- C3 counterexample: the router emits a path for the edge `a → b` whose first
segment (the horizontal stub from `a`'s right edge to the gutter) passes strictly
through the interior of ticket `c`'s rectangle — that stub is never checked against
obstacles. -/
theorem c3_counterexample :
    routePaths cexPositions cexTickets ["S1", "S2"] cexContainer none none =
      [{ fromId := "a", toId := "b",
         points := [{ x := 100, y := 25 }, { x := 128, y := 25 }, { x := 128, y := 70 },
                    { x := 372, y := 70 }, { x := 372, y := 25 },
                    { x := 400, y := 25 }] }] ∧
    onSegment { x := 108, y := 25 } { x := 100, y := 25 } { x := 128, y := 25 } ∧
    strictlyInside { x := 108, y := 25 } (toRelativeRect cexContainer "c" cexRectC) ∧
    ("c" ≠ "a" ∧ "c" ≠ "b") := by
  refine ⟨by decide, ?_, by decide, by decide, by decide⟩
  left
  refine ⟨rfl, rfl, by decide, by decide⟩

theorem findLaneYGo_spec (rectList : List RelativeRect)
    (startRect endRect : RelativeRect)
    (exitX entryX startAnchorY endAnchorY minY maxY : ℚ)
    (pairs : List (ℚ × Int)) (tested : List ℚ) (y : ℚ)
    (h : findLaneYGo rectList startRect endRect exitX entryX startAnchorY endAnchorY
      minY maxY pairs tested = some y) :
    ¬((qsub startRect.top CLEARANCE < y ∧ y < qadd startRect.bottom CLEARANCE) ∨
      (qsub endRect.top CLEARANCE < y ∧ y < qadd endRect.bottom CLEARANCE)) ∧
    horizontalBlocked rectList y exitX entryX [startRect.id, endRect.id] = false ∧
    verticalBlocked rectList exitX startAnchorY y [startRect.id] = false ∧
    verticalBlocked rectList entryX endAnchorY y [endRect.id] = false := by
  induction pairs generalizing tested with
  | nil => simp [findLaneYGo] at h
  | cons pb rest ih =>
      obtain ⟨base, offset⟩ := pb
      simp only [findLaneYGo] at h
      split at h
      · exact ih tested h
      · split at h
        · exact ih _ h
        · split at h
          · exact ih _ h
          · split at h
            · exact ih _ h
            · split at h
              · exact ih _ h
              · next hmem hband hhb hv1 hv2 =>
                  cases h
                  exact ⟨hband, Bool.not_eq_true _ ▸ Bool.of_not_eq_true hhb,
                    Bool.of_not_eq_true hv1, Bool.of_not_eq_true hv2⟩

theorem buildCrossColumnPathGo_spec (rectList : List RelativeRect)
    (containerRect : RectSnapshot) (startRect endRect : RelativeRect)
    (startAnchorY endAnchorY : ℚ) (horizontalDir laneOffsetIndex : Int)
    (preferDown : Bool) (startEdgeX endEdgeX : ℚ) (attempts : List Nat)
    (pts : List Point)
    (h : buildCrossColumnPathGo rectList containerRect startRect endRect startAnchorY
      endAnchorY horizontalDir laneOffsetIndex preferDown startEdgeX endEdgeX
      attempts = some pts) :
    ∃ exitX entryX laneY,
      pts = dedupePoints
        [{ x := startEdgeX, y := startAnchorY }, { x := exitX, y := startAnchorY },
         { x := exitX, y := laneY }, { x := entryX, y := laneY },
         { x := entryX, y := endAnchorY }, { x := endEdgeX, y := endAnchorY }] ∧
      verticalBlocked rectList exitX startAnchorY startAnchorY [startRect.id] = false ∧
      findLaneY rectList containerRect preferDown startRect endRect exitX entryX
        laneOffsetIndex startAnchorY endAnchorY = some laneY := by
  induction attempts with
  | nil => simp [buildCrossColumnPathGo] at h
  | cons attempt rest ih =>
      simp only [buildCrossColumnPathGo] at h
      split at h
      · exact ih h
      · next hexit =>
          split at h
          · exact ih h
          · next laneY hlane =>
              cases h
              refine ⟨_, _, laneY, rfl, Bool.of_not_eq_true hexit, hlane⟩

/-- C3 amended: every cross-column path the router accepts comes from a gutter and a
lane that passed the obstacle search: the gutter vertical at the exit, the lane
horizontal between the exit and entry gutters, and the two vertical connectors are
clear of every non-endpoint ticket rectangle (with the clearance margin), and the
lane avoids the clearance-padded vertical bands of both endpoint rectangles; when no
gutter/lane combination passes the checks the builder returns nothing.  The terminal
horizontal stubs between each ticket's edge and its gutter are not checked and can
cross another ticket's rectangle (see the counterexample).  At the pipeline level an
edge whose build fails is silently dropped: every emitted path has at least two
points, produced by a successful build. -/
theorem c3_router_lane_clearance :
    (∀ (rectList : List RelativeRect) (containerRect : RectSnapshot)
        (startRect endRect : RelativeRect) (startAnchorY endAnchorY : ℚ)
        (horizontalDir laneOffsetIndex : Int) (pts : List Point),
      buildCrossColumnPath rectList containerRect startRect endRect startAnchorY
          endAnchorY horizontalDir laneOffsetIndex = some pts →
      ∃ exitX entryX laneY,
        pts = dedupePoints
          [{ x := if 0 < horizontalDir then startRect.right else startRect.left,
             y := startAnchorY },
           { x := exitX, y := startAnchorY }, { x := exitX, y := laneY },
           { x := entryX, y := laneY }, { x := entryX, y := endAnchorY },
           { x := if 0 < horizontalDir then endRect.left else endRect.right,
             y := endAnchorY }] ∧
        verticalBlocked rectList exitX startAnchorY startAnchorY [startRect.id] = false ∧
        horizontalBlocked rectList laneY exitX entryX [startRect.id, endRect.id] = false ∧
        verticalBlocked rectList exitX startAnchorY laneY [startRect.id] = false ∧
        verticalBlocked rectList entryX endAnchorY laneY [endRect.id] = false ∧
        ¬((qsub startRect.top CLEARANCE < laneY ∧
            laneY < qadd startRect.bottom CLEARANCE) ∨
          (qsub endRect.top CLEARANCE < laneY ∧
            laneY < qadd endRect.bottom CLEARANCE))) ∧
    (∀ (positions : List (String × RectSnapshot)) (tickets : List Ticket)
        (orderedSprintIds : List String) (containerRect : RectSnapshot)
        (activeTicketId : Option String) (activeRectSnapshot : Option RectSnapshot)
        (r : RoutedPath),
      r ∈ routePaths positions tickets orderedSprintIds containerRect activeTicketId
          activeRectSnapshot →
      2 ≤ r.points.length) := by
  constructor
  · intro rectList containerRect startRect endRect startAnchorY endAnchorY
      horizontalDir laneOffsetIndex pts h
    unfold buildCrossColumnPath at h
    obtain ⟨exitX, entryX, laneY, hpts, hexit, hlane⟩ :=
      buildCrossColumnPathGo_spec _ _ _ _ _ _ _ _ _ _ _ _ _ h
    obtain ⟨hband, hhb, hv1, hv2⟩ :=
      findLaneYGo_spec _ _ _ _ _ _ _ _ _ _ _ _ (by unfold findLaneY at hlane; exact hlane)
    exact ⟨exitX, entryX, laneY, hpts, hexit, hhb, hv1, hv2, hband⟩
  · intro positions tickets orderedSprintIds containerRect activeTicketId
      activeRectSnapshot r hr
    simp only [routePaths] at hr
    split at hr
    · simp at hr
    · simp only [List.mem_flatMap] at hr
      obtain ⟨k, _, hr⟩ := hr
      simp only [routeGroup, List.mem_filterMap] at hr
      obtain ⟨p, _, hp⟩ := hr
      split at hp
      · next points hbuild =>
          split at hp
          · next hlen =>
              cases hp
              exact hlen
          · simp at hp
      · simp at hp

/-- The relative rectangles of the counterexample configuration, as the router
computes them. -/
def cexRectList : List RelativeRect :=
  [toRelativeRect cexContainer "a" cexRectA,
   toRelativeRect cexContainer "b" cexRectB,
   toRelativeRect cexContainer "c" cexRectC]

/-- The path the router emits for the counterexample configuration. -/
def cexRouted : RoutedPath :=
  { fromId := "a", toId := "b",
    points := [{ x := 100, y := 25 }, { x := 128, y := 25 }, { x := 128, y := 70 },
               { x := 372, y := 70 }, { x := 372, y := 25 }, { x := 400, y := 25 }] }

theorem c3_router_lane_clearance_witness :
    cexRouted ∈ routePaths cexPositions cexTickets ["S1", "S2"] cexContainer
      none none ∧
    2 ≤ cexRouted.points.length ∧
    buildCrossColumnPath cexRectList cexContainer
      (toRelativeRect cexContainer "a" cexRectA)
      (toRelativeRect cexContainer "b" cexRectB) 25 25 1 0 =
        some cexRouted.points ∧
    (∃ exitX entryX laneY,
      cexRouted.points = dedupePoints
        [{ x := (toRelativeRect cexContainer "a" cexRectA).right, y := 25 },
         { x := exitX, y := 25 }, { x := exitX, y := laneY },
         { x := entryX, y := laneY }, { x := entryX, y := 25 },
         { x := (toRelativeRect cexContainer "b" cexRectB).left, y := 25 }] ∧
      verticalBlocked cexRectList exitX 25 25
        [(toRelativeRect cexContainer "a" cexRectA).id] = false ∧
      horizontalBlocked cexRectList laneY exitX entryX
        [(toRelativeRect cexContainer "a" cexRectA).id,
         (toRelativeRect cexContainer "b" cexRectB).id] = false ∧
      verticalBlocked cexRectList exitX 25 laneY
        [(toRelativeRect cexContainer "a" cexRectA).id] = false ∧
      verticalBlocked cexRectList entryX 25 laneY
        [(toRelativeRect cexContainer "b" cexRectB).id] = false ∧
      ¬((qsub (toRelativeRect cexContainer "a" cexRectA).top CLEARANCE < laneY ∧
          laneY < qadd (toRelativeRect cexContainer "a" cexRectA).bottom CLEARANCE) ∨
        (qsub (toRelativeRect cexContainer "b" cexRectB).top CLEARANCE < laneY ∧
          laneY < qadd (toRelativeRect cexContainer "b" cexRectB).bottom CLEARANCE))) :=
  ⟨by decide,
    c3_router_lane_clearance.2 cexPositions cexTickets ["S1", "S2"] cexContainer
      none none cexRouted (by decide),
    by decide,
    by
      have h := c3_router_lane_clearance.1 cexRectList cexContainer
        (toRelativeRect cexContainer "a" cexRectA)
        (toRelativeRect cexContainer "b" cexRectB) 25 25 1 0 cexRouted.points
        (by decide)
      simpa using h⟩

/-- The rectangle whose edge carries the anchor for the given side. -/
def sideRectOf (byStart : Bool) (s : Segment) : RelativeRect :=
  if byStart then s.startRect else s.endRect

/-- The slot field for the given side. -/
def slotOf (byStart : Bool) (s : Segment) : Option Nat :=
  if byStart then s.startSlot else s.endSlot

/-- The counterpart endpoint's vertical center for the given side. -/
def otherCenterY (byStart : Bool) (s : Segment) : ℚ :=
  if byStart then s.endRect.centerY else s.startRect.centerY

theorem keyOf_writeSlot (b b2 : Bool) (pairs : List (Segment × Nat)) (s : Segment) :
    keyOf b (writeSlot b2 pairs s) = keyOf b s := by
  cases b2 <;> unfold writeSlot <;> split <;> (cases b <;> rfl)

theorem sideRectOf_writeSlot (b b2 : Bool) (pairs : List (Segment × Nat))
    (s : Segment) : sideRectOf b (writeSlot b2 pairs s) = sideRectOf b s := by
  cases b2 <;> unfold writeSlot <;> split <;> (cases b <;> rfl)

theorem otherCenterY_writeSlot (b b2 : Bool) (pairs : List (Segment × Nat))
    (s : Segment) : otherCenterY b (writeSlot b2 pairs s) = otherCenterY b s := by
  cases b2 <;> unfold writeSlot <;> split <;> (cases b <;> rfl)

theorem assignGo_map_fst (totals : String → Nat) (byStart : Bool)
    (l : List Segment) (acc : List (String × Nat)) :
    (assignGo totals byStart l acc).map (fun p => p.1) = l := by
  induction l generalizing acc with
  | nil => rfl
  | cons seg rest ih =>
      simp only [assignGo]
      split
      · simp [ih]
      · simp [ih]

theorem find_by_idx (pairs : List (Segment × Nat))
    (hnd : (pairs.map (fun p => p.1.idx)).Nodup) :
    ∀ p ∈ pairs, pairs.find? (fun q => q.1.idx == p.1.idx) = some p := by
  induction pairs with
  | nil => intro p hp; simp at hp
  | cons p0 rest ih =>
      simp only [List.map_cons, List.nodup_cons, List.mem_map] at hnd
      intro p hp
      rcases List.mem_cons.mp hp with rfl | hp
      · simp [List.find?_cons]
      · have hne : (p0.1.idx == p.1.idx) = false := by
          rw [beq_eq_false_iff_ne]
          intro hc
          exact hnd.1 ⟨p, hp, hc.symm⟩
        rw [List.find?_cons, hne]
        exact ih hnd.2 p hp

theorem assignGo_filter_slots (totals : String → Nat) (byStart : Bool) (k : String)
    (hk : 1 < totals k) (l : List Segment) (acc : List (String × Nat)) :
    ((assignGo totals byStart l acc).filter
        (fun p => keyOf byStart p.1 == k)).map (fun p => p.2) =
      List.range' (((acc.find? (fun q => q.1 == k)).map (fun q => q.2)).getD 0)
        ((l.filter (fun s => keyOf byStart s == k)).length) := by
  induction l generalizing acc with
  | nil => rfl
  | cons seg rest ih =>
      by_cases hkey : keyOf byStart seg = k
      · have htle : ¬(totals (keyOf byStart seg) ≤ 1) := by
          rw [hkey]; omega
        simp only [assignGo, if_neg htle, List.filter_cons, List.map_cons,
          List.length_cons]
        simp only [hkey, beq_self_eq_true, if_true, List.map_cons, List.length_cons,
          List.range'_succ]
        congr 1
        rw [ih ((k, (((acc.find? (fun q => q.1 == k)).map (fun q => q.2)).getD 0) + 1)
          :: acc)]
        congr 1
        simp [List.find?_cons]
      · have hkeyb : (keyOf byStart seg == k) = false := by simpa using hkey
        simp only [assignGo]
        split
        · simp only [List.filter_cons, hkeyb, Bool.false_eq_true, if_false]
          exact ih acc
        · simp only [List.filter_cons, hkeyb, Bool.false_eq_true, if_false]
          rw [ih]
          congr 2
          simp only [List.find?_cons, hkeyb]

theorem slotOf_writeSlot (byStart : Bool) (pairs : List (Segment × Nat))
    (p : Segment × Nat) (hfind : pairs.find? (fun q => q.1.idx == p.1.idx) = some p) :
    slotOf byStart (writeSlot byStart pairs p.1) = some p.2 := by
  unfold writeSlot
  rw [hfind]
  cases byStart <;> simp [slotOf]

theorem computeAnchor_some (r : RelativeRect) (j n : Nat) (hn2 : 2 ≤ n) (hj : j < n) :
    computeAnchor r (some j) n =
      r.top + r.height / ((n : ℚ) + 1) * ((j : ℚ) + 1) := by
  unfold computeAnchor
  dsimp only
  rw [if_neg (by omega : ¬ n ≤ 1)]
  have hc : (0 : Nat) ⊔ j ⊓ (n - 1) = j := by omega
  rw [hc, qadd_eq, qmul_eq, qdiv_eq]
  push_cast
  ring

theorem computeAnchor_lt (r : RelativeRect) (j1 j2 n : Nat) (hn2 : 2 ≤ n)
    (hj1 : j1 < n) (hj2 : j2 < n) (hlt : j1 < j2) (hh : 0 < r.height) :
    computeAnchor r (some j1) n < computeAnchor r (some j2) n := by
  rw [computeAnchor_some r j1 n hn2 hj1, computeAnchor_some r j2 n hn2 hj2]
  have hstep : 0 < r.height / ((n : ℚ) + 1) := by positivity
  have hc : ((j1 : ℚ) + 1) < ((j2 : ℚ) + 1) := by
    have : (j1 : ℚ) < (j2 : ℚ) := by exact_mod_cast hlt
    linarith
  exact add_lt_add_left (mul_lt_mul_of_pos_left hc hstep) r.top

theorem slotLE_other (byStart : Bool) (a b : Segment) (h : slotLE byStart a b)
    (hc : (sideRectOf byStart a).centerY = (sideRectOf byStart b).centerY) :
    otherCenterY byStart a ≤ otherCenterY byStart b := by
  cases byStart <;>
    simp only [slotLE, sideRectOf, otherCenterY, if_true, if_false, Bool.false_eq_true,
      ite_true, ite_false] at h hc ⊢ <;>
    rcases h with h | ⟨_, h2⟩
  · exact absurd h (by rw [hc]; exact lt_irrefl _)
  · exact h2
  · exact absurd h (by rw [hc]; exact lt_irrefl _)
  · exact h2

theorem assignSlots_fanout_aux (byStart : Bool) (totals : String → Nat)
    (segs S : List Segment) (pairs : List (Segment × Nat)) (k : String)
    (r : RelativeRect) (n : Nat)
    (hS : S = List.insertionSort (slotLE byStart) segs)
    (hpairs : pairs = assignGo totals byStart S [])
    (hnd : (segs.map (fun s => s.idx)).Nodup)
    (hr : ∀ s ∈ segs, keyOf byStart s = k → sideRectOf byStart s = r)
    (hn : (segs.filter (fun s => keyOf byStart s == k)).length = n)
    (htot : totals k = n) (hn2 : 2 ≤ n) (hh : 0 < r.height) :
    (((segs.map (writeSlot byStart pairs)).filter
        (fun s => keyOf byStart s == k)).map
        (fun s => computeAnchor r (slotOf byStart s) (totals k))).Perm
      ((List.range n).map
        (fun j : Nat => r.top + r.height / ((n : ℚ) + 1) * ((j : ℚ) + 1))) ∧
    (∀ s1 ∈ (segs.map (writeSlot byStart pairs)).filter
        (fun s => keyOf byStart s == k),
      ∀ s2 ∈ (segs.map (writeSlot byStart pairs)).filter
        (fun s => keyOf byStart s == k),
      otherCenterY byStart s1 < otherCenterY byStart s2 →
        computeAnchor r (slotOf byStart s1) (totals k) <
          computeAnchor r (slotOf byStart s2) (totals k)) := by
  have hperm : S.Perm segs := hS ▸ List.perm_insertionSort _ _
  have hfst : pairs.map (fun p => p.1) = S := hpairs ▸ assignGo_map_fst _ _ _ _
  have hndS : (S.map (fun s => s.idx)).Nodup := ((hperm.map _).symm).nodup hnd
  have hndP : (pairs.map (fun p => p.1.idx)).Nodup := by
    have he : pairs.map (fun p => p.1.idx) = S.map (fun s => s.idx) := by
      rw [← hfst, List.map_map]
      rfl
    rw [he]
    exact hndS
  have hfind : ∀ p ∈ pairs, pairs.find? (fun q => q.1.idx == p.1.idx) = some p :=
    find_by_idx pairs hndP
  have hk1 : 1 < totals k := by omega
  have hlenS : (S.filter (fun s => keyOf byStart s == k)).length = n := by
    rw [← hn]
    exact (hperm.filter _).length_eq
  have hslots : ((pairs.filter (fun p => keyOf byStart p.1 == k)).map (fun p => p.2))
      = List.range' 0 n := by
    rw [hpairs]
    have := assignGo_filter_slots totals byStart k hk1 S []
    simpa [hlenS] using this
  have hfstK : (pairs.filter (fun p => keyOf byStart p.1 == k)).map (fun p => p.1)
      = S.filter (fun s => keyOf byStart s == k) := by
    rw [← hfst, List.filter_map]
    rfl
  have hsr : ∀ s ∈ S, keyOf byStart s = k → sideRectOf byStart s = r := by
    intro s hs
    exact hr s (hperm.mem_iff.mp hs)
  have hslotOf : ∀ p ∈ pairs, slotOf byStart (writeSlot byStart pairs p.1) = some p.2 := by
    intro p hp
    exact slotOf_writeSlot byStart pairs p (hfind p hp)
  have hboundP : ∀ p ∈ pairs.filter (fun p => keyOf byStart p.1 == k), p.2 < n := by
    intro p hp
    have : p.2 ∈ (pairs.filter (fun p => keyOf byStart p.1 == k)).map (fun p => p.2) :=
      List.mem_map.mpr ⟨p, hp, rfl⟩
    rw [hslots] at this
    have hb := ((List.mem_range'_1).mp this).2
    omega
  have hgroup : ((segs.map (writeSlot byStart pairs)).filter
      (fun s => keyOf byStart s == k))
      = (segs.filter (fun s => keyOf byStart s == k)).map (writeSlot byStart pairs) := by
    rw [List.filter_map]
    congr 1
    apply List.filter_congr
    intro x _
    simp [Function.comp, keyOf_writeSlot]
  have hgroupS : ((S.map (writeSlot byStart pairs)).filter
      (fun s => keyOf byStart s == k))
      = (S.filter (fun s => keyOf byStart s == k)).map (writeSlot byStart pairs) := by
    rw [List.filter_map]
    congr 1
    apply List.filter_congr
    intro x _
    simp [Function.comp, keyOf_writeSlot]
  have hanchS : ((S.filter (fun s => keyOf byStart s == k)).map
        (writeSlot byStart pairs)).map
        (fun s => computeAnchor r (slotOf byStart s) (totals k))
      = (List.range n).map
        (fun j : Nat => r.top + r.height / ((n : ℚ) + 1) * ((j : ℚ) + 1)) := by
    rw [← hfstK, List.map_map, List.map_map]
    have hstep : (pairs.filter (fun p => keyOf byStart p.1 == k)).map
        (((fun s => computeAnchor r (slotOf byStart s) (totals k)) ∘
          writeSlot byStart pairs) ∘ (fun p => p.1))
        = (pairs.filter (fun p => keyOf byStart p.1 == k)).map
          (fun p => computeAnchor r (some p.2) (totals k)) := by
      apply List.map_congr_left
      intro p hp
      have hp2 : p ∈ pairs := List.mem_of_mem_filter hp
      show computeAnchor r (slotOf byStart (writeSlot byStart pairs p.1)) (totals k) = _
      rw [hslotOf p hp2]
    rw [hstep]
    have hstep2 : (pairs.filter (fun p => keyOf byStart p.1 == k)).map
        (fun p => computeAnchor r (some p.2) (totals k))
        = ((pairs.filter (fun p => keyOf byStart p.1 == k)).map (fun p => p.2)).map
          (fun j => computeAnchor r (some j) (totals k)) := by
      rw [List.map_map]
      rfl
    rw [hstep2, hslots, ← List.range_eq_range']
    apply List.map_congr_left
    intro j hj
    rw [htot]
    exact computeAnchor_some r j n hn2 (List.mem_range.mp hj)
  constructor
  · rw [hgroup]
    have hpermA : ((segs.filter (fun s => keyOf byStart s == k)).map
          (writeSlot byStart pairs)).map
          (fun s => computeAnchor r (slotOf byStart s) (totals k)) |>.Perm
        (((S.filter (fun s => keyOf byStart s == k)).map
          (writeSlot byStart pairs)).map
          (fun s => computeAnchor r (slotOf byStart s) (totals k))) :=
      (((hperm.filter _).symm).map _).map _
    rw [hanchS] at hpermA
    exact hpermA
  · have hpw : (pairs.filter (fun p => keyOf byStart p.1 == k)).Pairwise
        (fun p q => slotLE byStart p.1 q.1 ∧ p.2 < q.2) := by
      have h1 : pairs.Pairwise (fun p q => slotLE byStart p.1 q.1) := by
        have hsort : S.Pairwise (slotLE byStart) := by
          rw [hS]
          exact List.sorted_insertionSort _ _
        rw [← hfst] at hsort
        exact List.pairwise_map.mp hsort
      have hsub : (pairs.filter (fun p => keyOf byStart p.1 == k)).Sublist pairs :=
        List.filter_sublist pairs
      have h1f := List.Pairwise.sublist hsub h1
      have h2 : (pairs.filter (fun p => keyOf byStart p.1 == k)).Pairwise
          (fun p q => p.2 < q.2) := by
        have hm : ((pairs.filter (fun p => keyOf byStart p.1 == k)).map
            (fun p => p.2)).Pairwise (fun a b => a < b) := by
          rw [hslots, ← List.range_eq_range']
          exact List.pairwise_lt_range n
        exact List.pairwise_map.mp hm
      exact h1f.and h2
    have hsym : ∀ p ∈ pairs.filter (fun p => keyOf byStart p.1 == k),
        ∀ q ∈ pairs.filter (fun p => keyOf byStart p.1 == k), p ≠ q →
        ((slotLE byStart p.1 q.1 ∧ p.2 < q.2) ∨
          (slotLE byStart q.1 p.1 ∧ q.2 < p.2)) := by
      have hsymR : Symmetric (fun (p q : Segment × Nat) =>
          (slotLE byStart p.1 q.1 ∧ p.2 < q.2) ∨
            (slotLE byStart q.1 p.1 ∧ q.2 < p.2)) := by
        intro p q h
        exact h.symm
      have hpw2 : (pairs.filter (fun p => keyOf byStart p.1 == k)).Pairwise
          (fun p q => (slotLE byStart p.1 q.1 ∧ p.2 < q.2) ∨
            (slotLE byStart q.1 p.1 ∧ q.2 < p.2)) :=
        hpw.imp (fun h => Or.inl h)
      intro p hp q hq hne
      exact List.Pairwise.forall hsymR hpw2 hp hq hne
    intro s1 hs1 s2 hs2 hlt
    rw [hgroup] at hs1 hs2
    obtain ⟨u1, hu1, rfl⟩ := List.mem_map.mp hs1
    obtain ⟨u2, hu2, rfl⟩ := List.mem_map.mp hs2
    have hu1S : u1 ∈ S.filter (fun s => keyOf byStart s == k) :=
      ((hperm.filter _).symm.mem_iff).mp hu1
    have hu2S : u2 ∈ S.filter (fun s => keyOf byStart s == k) :=
      ((hperm.filter _).symm.mem_iff).mp hu2
    rw [← hfstK] at hu1S hu2S
    obtain ⟨p1, hp1, hp1u⟩ := List.mem_map.mp hu1S
    obtain ⟨p2, hp2, hp2u⟩ := List.mem_map.mp hu2S
    subst hp1u
    subst hp2u
    rw [otherCenterY_writeSlot, otherCenterY_writeSlot] at hlt
    have hne : p1 ≠ p2 := by
      intro hc
      rw [hc] at hlt
      exact lt_irrefl _ hlt
    have hkey1 : keyOf byStart p1.1 = k := by
      have := List.of_mem_filter hp1
      simpa using this
    have hkey2 : keyOf byStart p2.1 = k := by
      have := List.of_mem_filter hp2
      simpa using this
    have hr1 : sideRectOf byStart p1.1 = r :=
      hr p1.1 (List.mem_of_mem_filter hu1) hkey1
    have hr2 : sideRectOf byStart p2.1 = r :=
      hr p2.1 (List.mem_of_mem_filter hu2) hkey2
    have hcenters : (sideRectOf byStart p2.1).centerY =
        (sideRectOf byStart p1.1).centerY := by
      rw [hr1, hr2]
    rcases hsym p1 hp1 p2 hp2 hne with ⟨_, hslt⟩ | ⟨hle, _⟩
    · rw [hslotOf p1 (List.mem_of_mem_filter hp1),
        hslotOf p2 (List.mem_of_mem_filter hp2), htot]
      exact computeAnchor_lt r p1.2 p2.2 n hn2 (hboundP p1 hp1) (hboundP p2 hp2) hslt hh
    · exact absurd (slotLE_other byStart p2.1 p1.1 hle hcenters) (not_le.mpr hlt)

theorem c8_anchor_injective (r : RelativeRect) (n : Nat) (hh : 0 < r.height) :
    ∀ a ∈ List.range n, ∀ b ∈ List.range n,
      r.top + r.height / ((n : ℚ) + 1) * ((a : ℚ) + 1)
        = r.top + r.height / ((n : ℚ) + 1) * ((b : ℚ) + 1) → a = b := by
  intro a _ b _ hab
  have hstep : (0 : ℚ) < r.height / ((n : ℚ) + 1) := by
    apply div_pos hh
    positivity
  have h2 : ((a : ℚ) + 1) = ((b : ℚ) + 1) :=
    mul_left_cancel₀ (ne_of_gt hstep) (add_left_cancel hab)
  have h3 : (a : ℚ) = (b : ℚ) := by linarith
  exact_mod_cast h3

/-- C8: in the dependency-edge router, for every group of `n ≥ 2` segments whose
anchors share the same (ticket id, side) key — and hence the same rectangle `r`
of positive height — `assignSlots` followed by `computeAnchor` hands the group
the `n` pairwise distinct, evenly spaced anchor y-coordinates
`r.top + j · r.height / (n + 1)` for `j = 1..n` (stated as a permutation plus
no-duplicates), and the assignment is ordered by the counterpart rectangle's
vertical center: the segment whose other endpoint is higher receives the
smaller offset. -/
theorem c8_assignSlots_fanout (byStart : Bool) (totals : String → Nat)
    (segs : List Segment) (k : String) (r : RelativeRect) (n : Nat)
    (hnd : (segs.map (fun s => s.idx)).Nodup)
    (hr : ∀ s ∈ segs, keyOf byStart s = k → sideRectOf byStart s = r)
    (hn : (segs.filter (fun s => keyOf byStart s == k)).length = n)
    (htot : totals k = n) (hn2 : 2 ≤ n) (hh : 0 < r.height) :
    (((assignSlots totals byStart segs).filter
        (fun s => keyOf byStart s == k)).map
        (fun s => computeAnchor r (slotOf byStart s) (totals k))).Perm
      ((List.range n).map
        (fun j : Nat => r.top + r.height / ((n : ℚ) + 1) * ((j : ℚ) + 1))) ∧
    (((assignSlots totals byStart segs).filter
        (fun s => keyOf byStart s == k)).map
        (fun s => computeAnchor r (slotOf byStart s) (totals k))).Nodup ∧
    (∀ s1 ∈ (assignSlots totals byStart segs).filter
        (fun s => keyOf byStart s == k),
      ∀ s2 ∈ (assignSlots totals byStart segs).filter
        (fun s => keyOf byStart s == k),
      otherCenterY byStart s1 < otherCenterY byStart s2 →
        computeAnchor r (slotOf byStart s1) (totals k) <
          computeAnchor r (slotOf byStart s2) (totals k)) := by
  have heq : assignSlots totals byStart segs
      = segs.map (writeSlot byStart
          (assignGo totals byStart
            (List.insertionSort (slotLE byStart) segs) [])) := rfl
  obtain ⟨hperm, hord⟩ := assignSlots_fanout_aux byStart totals segs
    (List.insertionSort (slotLE byStart) segs)
    (assignGo totals byStart (List.insertionSort (slotLE byStart) segs) [])
    k r n rfl rfl hnd hr hn htot hn2 hh
  rw [heq]
  refine ⟨hperm, ?_, hord⟩
  have hndR : ((List.range n).map
      (fun j : Nat => r.top + r.height / ((n : ℚ) + 1) * ((j : ℚ) + 1))).Nodup :=
    List.Nodup.map_on (c8_anchor_injective r n hh) (List.nodup_range n)
  exact (hperm.nodup_iff).mpr hndR

/-- Shared source-side rectangle for the fan-out witness. -/
def wRectS : RelativeRect :=
  { id := "t1"
    left := 0
    right := 100
    top := 0
    bottom := 60
    width := 100
    height := 60
    centerX := 50
    centerY := 30 }

/-- Counterpart rectangle of the first witness segment (higher on screen). -/
def wRectE1 : RelativeRect :=
  { id := "t2"
    left := 200
    right := 300
    top := 0
    bottom := 40
    width := 100
    height := 40
    centerX := 250
    centerY := 20 }

/-- Counterpart rectangle of the second witness segment (lower on screen). -/
def wRectE2 : RelativeRect :=
  { id := "t3"
    left := 200
    right := 300
    top := 100
    bottom := 140
    width := 100
    height := 40
    centerX := 250
    centerY := 120 }

/-- First witness segment: t1 → t2, anchored on t1's right side. -/
def wSeg1 : Segment :=
  { idx := 0
    fromId := "t1"
    toId := "t2"
    startRect := wRectS
    endRect := wRectE1
    startSprintIdx := 0
    endSprintIdx := 1
    sameColumn := false
    horizontalDir := 1
    groupKey := "row-0-1-r"
    orderKey := 25
    startSideKey := "t1:right"
    endSideKey := "t2:left"
    startSlot := none
    endSlot := none }

/-- Second witness segment: t1 → t3, anchored on t1's right side. -/
def wSeg2 : Segment :=
  { idx := 1
    fromId := "t1"
    toId := "t3"
    startRect := wRectS
    endRect := wRectE2
    startSprintIdx := 0
    endSprintIdx := 1
    sameColumn := false
    horizontalDir := 1
    groupKey := "row-0-1-r"
    orderKey := 75
    startSideKey := "t1:right"
    endSideKey := "t3:left"
    startSlot := none
    endSlot := none }

/-- Per-key totals for the fan-out witness: two segments share t1's right side. -/
def wTotals : String → Nat :=
  fun kk => if kk = "t1:right" then 2 else 1

theorem c8_assignSlots_fanout_witness :
    (((assignSlots wTotals true [wSeg1, wSeg2]).filter
        (fun s => keyOf true s == "t1:right")).map
        (fun s => computeAnchor wRectS (slotOf true s) (wTotals "t1:right"))).Perm
      ((List.range 2).map
        (fun j : Nat => wRectS.top + wRectS.height / ((2 : ℚ) + 1) * ((j : ℚ) + 1))) ∧
    (((assignSlots wTotals true [wSeg1, wSeg2]).filter
        (fun s => keyOf true s == "t1:right")).map
        (fun s => computeAnchor wRectS (slotOf true s) (wTotals "t1:right"))).Nodup ∧
    (∀ s1 ∈ (assignSlots wTotals true [wSeg1, wSeg2]).filter
        (fun s => keyOf true s == "t1:right"),
      ∀ s2 ∈ (assignSlots wTotals true [wSeg1, wSeg2]).filter
        (fun s => keyOf true s == "t1:right"),
      otherCenterY true s1 < otherCenterY true s2 →
        computeAnchor wRectS (slotOf true s1) (wTotals "t1:right") <
          computeAnchor wRectS (slotOf true s2) (wTotals "t1:right")) :=
  c8_assignSlots_fanout true wTotals [wSeg1, wSeg2] "t1:right" wRectS 2
    (by decide) (by decide) (by decide) (by decide) (by decide) (by decide)
